import Mathlib

/-!
# OS161 virtual-memory core: page table, address spaces, fault handler

A shallow embedding of `VirtualMemory/vm/vm.c` and `VirtualMemory/vm/addrspace.c`.

* Machine words are natural numbers; 32-bit wrap-around is written out with `% 2^32`.
* The global page table is the array `page_table[0 .. 2*framenum)`.  The C code reaches its
  entries through the raw pointer `page_table + i` and never compares `i` with the size of
  the array, so `slots i` is given for every index: for `i` at or above `2*framenum` it is the
  memory that follows the table, which the code reads and writes in the same way.  The model
  keeps these cells apart from the frame contents `mem`.
* A failed `KASSERT` is reported as `Fault.kassert`, a call of `panic` as `Fault.panic`.
* External services (`alloc_kpages`, `kmalloc`, the slot chosen by `tlb_random`) are
  parameters of the functions that call them.
* `Kernel.consistent` collects what every run from `vm_bootstrap` keeps true of the page
  table (`run_steps_consistent`); the conditions under which the lookup, the insert and the
  copy are stated follow from it (`consistent_room`, `consistent_copy`).
-/

namespace OS161

/-! ## Constants of the kernel headers -/

/-- Modelled from the spec: `PAGE_SIZE` of the machine header `vm.h` (not under src); the
spec fixes a 4096-byte page. -/
def PAGE_SIZE : Nat := 4096

/-- Modelled from the spec: `PAGE_FRAME` of the machine header `vm.h` (not under src): the
mask that clears the 12 offset bits of a 32-bit address. -/
def PAGE_FRAME : Nat := 0xfffff000

/-- Modelled from the spec: `MIPS_KSEG0` of the machine header `vm.h` (not under src): the
base of the direct-mapped kernel segment, which is also the top of user space. -/
def MIPS_KSEG0 : Nat := 0x80000000

/-- Modelled from the spec: `USERSTACK` of the machine header `vm.h` (not under src): the
fixed user-stack ceiling, equal to the top of user space. -/
def USERSTACK : Nat := MIPS_KSEG0

/-- The maximum stack size in pages, `#define VM_STACKPAGES 16` of `addrspace.h`. -/
def VM_STACKPAGES : Nat := 16

/-- Modelled from the spec: `NUM_TLB` of `machine/tlb.h` (not under src): the fixed number
of translation-cache slots. -/
def NUM_TLB : Nat := 64

/-- Modelled from the spec: `TLBLO_DIRTY` of `machine/tlb.h` (not under src). -/
def TLBLO_DIRTY : Nat := 0x400

/-- Modelled from the spec: `TLBLO_VALID` of `machine/tlb.h` (not under src). -/
def TLBLO_VALID : Nat := 0x200

/-- Modelled from the spec: the ELF permission flag `PF_R` of `elf.h` (not under src). -/
def PF_R : Nat := 4

/-- Modelled from the spec: the ELF permission flag `PF_W` of `elf.h` (not under src). -/
def PF_W : Nat := 2

/-- Modelled from the spec: the ELF permission flag `PF_X` of `elf.h` (not under src). -/
def PF_X : Nat := 1

/-- Modelled from the spec: fault kind `VM_FAULT_READ` of `vm.h` (not under src). -/
def VM_FAULT_READ : Nat := 0

/-- Modelled from the spec: fault kind `VM_FAULT_WRITE` of `vm.h` (not under src). -/
def VM_FAULT_WRITE : Nat := 1

/-- Modelled from the spec: fault kind `VM_FAULT_READONLY` of `vm.h` (not under src). -/
def VM_FAULT_READONLY : Nat := 2

/-- Modelled from the spec: error code `ENOMEM` of `kern/errno.h` (not under src). -/
def ENOMEM : Nat := 3

/-- Modelled from the spec: error code `EFAULT` of `kern/errno.h` (not under src). -/
def EFAULT : Nat := 6

/-- Modelled from the spec: error code `EINVAL` of `kern/errno.h` (not under src). -/
def EINVAL : Nat := 8

/-! ## 32-bit arithmetic -/

/-- Truncation of a natural number to an unsigned 32-bit word. -/
def u32 (n : Nat) : Nat := n % 2 ^ 32

/-- Unsigned 32-bit subtraction `a - b` with wrap-around. -/
def sub32 (a b : Nat) : Nat := (a % 2 ^ 32 + 2 ^ 32 - b % 2 ^ 32) % 2 ^ 32

/-- Modelled from the spec: the macro `KVADDR_TO_PADDR` of the machine header `vm.h` (not
under src): a kernel virtual address minus `MIPS_KSEG0`, in unsigned 32-bit arithmetic. -/
def KVADDR_TO_PADDR (vaddr : Nat) : Nat := sub32 vaddr MIPS_KSEG0

/-- Modelled from the spec: the macro `PADDR_TO_KVADDR` of the machine header `vm.h` (not
under src): a physical address plus `MIPS_KSEG0`, in unsigned 32-bit arithmetic. -/
def PADDR_TO_KVADDR (paddr : Nat) : Nat := u32 (paddr + MIPS_KSEG0)

/-! ## Abnormal terminations -/

/-- The ways a kernel routine can end without returning to its caller. -/
inductive Fault where
  /-- A `KASSERT` failed (the kernel panics). -/
  | kassert
  /-- A null pointer was dereferenced. -/
  | null_deref
  /-- The kernel called `panic`. -/
  | panic
  deriving DecidableEq, Repr

/-! ## The global page table -/

/-- One slot of the page table, `struct page_table_entry` (fields as used in `vm.c`). -/
structure page_table_entry where
  id : Nat
  page_addr : Nat
  frame_addr : Nat
  deriving DecidableEq, Repr

/-- The globals `framenum`, `frametop` and `page_table`.  The array proper consists of the
slots `slots 0 .. slots (2*framenum - 1)`; `slots i` for a larger `i` is the cell
`page_table + i` behind the array. -/
structure PageTable where
  framenum : Nat
  frametop : Nat
  slots : Nat → page_table_entry

/-- Number of slots of the page table proper. -/
def PageTable.size (pt : PageTable) : Nat := 2 * pt.framenum

/-- Store `e` in slot `k`. -/
def setSlot (s : Nat → page_table_entry) (k : Nat) (e : page_table_entry) :
    Nat → page_table_entry :=
  fun j => if j = k then e else s j

/-- The index `i = (pa - frametop) / PAGE_SIZE` with `pa = KVADDR_TO_PADDR(va)`, computed by
`look_up_page_table` and `page_table_insert` in unsigned 32-bit arithmetic. -/
def direct_index (frametop va : Nat) : Nat :=
  sub32 (KVADDR_TO_PADDR va) frametop / PAGE_SIZE

/-- The test `pte->id == check_id && pte->page_addr == va`. -/
def pte_match (e : page_table_entry) (check_id va : Nat) : Bool :=
  e.id == check_id && e.page_addr == va

/-- The loop `for (i = 0; i < framenum; i++)` of `look_up_page_table`, with `n` iterations
left and the pointer at slot `k`: the frame of the first matching slot, if any. -/
def look_up_scan (s : Nat → page_table_entry) (check_id va : Nat) : Nat → Nat → Option Nat
  | 0, _ => none
  | n + 1, k =>
    if pte_match (s k) check_id va then some (s k).frame_addr
    else look_up_scan s check_id va n (k + 1)

/-- The function `look_up_page_table(check_id, va)`: the frame recorded for the pair, or 0. -/
def look_up_page_table (pt : PageTable) (check_id va : Nat) : Except Fault Nat :=
  if va &&& PAGE_FRAME ≠ va then .error .kassert
  else
    let i := direct_index pt.frametop va
    if pte_match (pt.slots i) check_id va then .ok (pt.slots i).frame_addr
    else if pte_match (pt.slots (i + pt.framenum)) check_id va then
      .ok (pt.slots (i + pt.framenum)).frame_addr
    else
      match look_up_scan pt.slots check_id va pt.framenum 0 with
      | some pa => .ok pa
      | none => .ok 0

/-- The loop `for (i = 0; i < framenum; i++) { if (pte->id==0) break; pte += 1; }` of
`page_table_insert`, with `n` iterations left and the pointer at slot `k`: the slot the
pointer rests on when the loop ends. -/
def insert_scan (s : Nat → page_table_entry) : Nat → Nat → Nat
  | 0, k => k
  | n + 1, k => if (s k).id = 0 then k else insert_scan s n (k + 1)

/-- The three stores `pte->page_addr = va; pte->frame_addr = pa; pte->id = id`. -/
def write_entry (pt : PageTable) (k id va pa : Nat) : PageTable :=
  { pt with slots := setSlot pt.slots k ⟨id, va, pa⟩ }

/-- The function `page_table_insert(id, va, pa)`: the table afterwards and the returned
pointer, `some k` for `&page_table[k]` and `none` for the null pointer. -/
def page_table_insert (pt : PageTable) (id va pa : Nat) :
    Except Fault (PageTable × Option Nat) :=
  if ¬ va < 0x80000000 then .error .kassert
  else
    let i := direct_index pt.frametop va
    if (pt.slots i).id = 0 then .ok (write_entry pt i id va pa, some i)
    else if (pt.slots (i + pt.framenum)).id = 0 then
      .ok (write_entry pt (i + pt.framenum) id va pa, some (i + pt.framenum))
    else
      let k := insert_scan pt.slots pt.framenum 0
      if (pt.slots k).id = 0 then .ok (write_entry pt k id va pa, some k)
      else .ok (pt, none)

/-- The loop of `delete_page_table_entry`, with `n` iterations left and the pointer at
slot `k`. -/
def delete_loop (id : Nat) : Nat → Nat → (Nat → page_table_entry) → (Nat → page_table_entry)
  | 0, _, s => s
  | n + 1, k, s =>
    delete_loop id n (k + 1)
      (if (s k).id = id then setSlot s k { s k with id := 0 } else s)

/-- The function `delete_page_table_entry(id)`. -/
def delete_page_table_entry (pt : PageTable) (id : Nat) : PageTable :=
  { pt with slots := delete_loop id (2 * pt.framenum) 0 pt.slots }

deriving instance DecidableEq for Except

/-! ## Address spaces and their region lists (`addrspace.h`, `addrspace.c`) -/

/-- One node of the region list, `struct as_region`; the `as_next_region` link is the list
structure. -/
structure as_region where
  as_vbase : Nat
  as_npages : Nat
  as_permissions : Nat
  deriving DecidableEq, Repr

/-- An address space, `struct addrspace`: its region list `as_regions_start`, and the storage
address `addr` of the struct itself, which `vm.c` uses as the owner id `(uint32_t)as`. -/
structure addrspace where
  addr : Nat
  as_regions_start : List as_region
  deriving DecidableEq, Repr

/-- The mask `~(vaddr_t)PAGE_FRAME`: the 12 offset bits of a 32-bit address. -/
def PAGE_OFFSET_MASK : Nat := 0xffffffff ^^^ PAGE_FRAME

/-- The base stored by `as_define_region`: `vaddr &= PAGE_FRAME`. -/
def define_region_base (vaddr : Nat) : Nat := vaddr &&& PAGE_FRAME

/-- The page count stored by `as_define_region`:
`sz += vaddr & ~PAGE_FRAME; sz = (sz + PAGE_SIZE - 1) & PAGE_FRAME; npages = sz / PAGE_SIZE`,
every step in unsigned 32-bit arithmetic. -/
def define_region_npages (vaddr sz : Nat) : Nat :=
  let sz1 := u32 (sz + (vaddr &&& PAGE_OFFSET_MASK))
  let sz2 := u32 (sz1 + PAGE_SIZE - 1) &&& PAGE_FRAME
  sz2 / PAGE_SIZE

/-- The function `as_define_region(as, vaddr, sz, readable, writeable, executable)`.  The
flag `node` tells whether the `kmalloc` of the new node succeeds; when it does not, the code
stores through the null pointer before it reaches its `panic`.  Both branches of the code
append the new node at the tail of the list. -/
def as_define_region (as : addrspace) (node : Bool) (vaddr sz readable writeable executable : Nat) :
    Except Fault (Nat × addrspace) :=
  if node = false then .error .null_deref
  else
    .ok (0, { as with
      as_regions_start := as.as_regions_start ++
        [⟨define_region_base vaddr, define_region_npages vaddr sz,
          u32 (readable ||| writeable ||| executable)⟩] })

/-- One iteration of the loop of `as_prepare_load`:
`permis = p; p <<= 8; p = p | permis | PF_W` on the 32-bit field `as_permissions`. -/
def prepare_region (re : as_region) : as_region :=
  { re with as_permissions := u32 (re.as_permissions <<< 8) ||| re.as_permissions ||| PF_W }

/-- One iteration of the loop of `as_complete_load`: `s->as_permissions >>= 8`. -/
def complete_region (re : as_region) : as_region :=
  { re with as_permissions := re.as_permissions >>> 8 }

/-- The function `as_prepare_load(as)`: asserts a non-empty region list, then walks it. -/
def as_prepare_load (as : addrspace) : Except Fault (Nat × addrspace) :=
  if as.as_regions_start = [] then .error .kassert
  else .ok (0, { as with as_regions_start := as.as_regions_start.map prepare_region })

/-- The function `as_complete_load(as)`: asserts a non-empty region list, then walks it. -/
def as_complete_load (as : addrspace) : Except Fault (Nat × addrspace) :=
  if as.as_regions_start = [] then .error .kassert
  else .ok (0, { as with as_regions_start := as.as_regions_start.map complete_region })

/-! ## Kernel state seen by the fault handler and by the page-table copy -/

/-- The state the routines of `vm.c` read and write: the page table, the bytes of memory at
each kernel virtual address, the translation cache (`entryhi`, `entrylo` of each slot), the
address space of the current process (`proc_getas()`, `none` for `NULL`), and `free`, the
results of the coming calls of `alloc_kpages(1)`. -/
structure Kernel where
  pt : PageTable
  mem : Nat → Nat
  tlb : Nat → Nat × Nat
  curas : Option addrspace
  free : List Nat

/-- Modelled from the spec: `alloc_kpages(1)` is not under src; the spec gives its interface,
`allocate(n_pages) -> physical_address | exhausted`.  The call returns the next element of
`free` (a kernel virtual address, or 0 when exhausted) and 0 when `free` is used up. -/
def alloc_kpages (st : Kernel) : Nat × Kernel :=
  match st.free with
  | [] => (0, st)
  | v :: rest => (v, { st with free := rest })

/-- The library call `bzero(p, len)` on the byte memory. -/
def bzero (mem : Nat → Nat) (p len : Nat) : Nat → Nat :=
  fun a => if sub32 a p < len then 0 else mem a

/-- The library call `memcpy(dst, src, len)` on the byte memory. -/
def memcpy (mem : Nat → Nat) (dst src len : Nat) : Nat → Nat :=
  fun a => if sub32 a dst < len then mem (u32 (src + sub32 a dst)) else mem a

/-- The function `as_zero_region(vaddr, npages)`. -/
def as_zero_region (mem : Nat → Nat) (vaddr npages : Nat) : Nat → Nat :=
  bzero mem vaddr (npages * PAGE_SIZE)

/-- The region loop of `vm_fault`: the values of `faultadd` and `permis` when the loop ends
(both 0 when no region contains the address).  Every region visited is checked by the three
`KASSERT`s of the loop body. -/
def region_scan (faultaddress : Nat) : List as_region → Except Fault (Nat × Nat)
  | [] => .ok (0, 0)
  | re :: rest =>
    if re.as_vbase = 0 then .error .kassert
    else if re.as_npages = 0 then .error .kassert
    else if re.as_vbase &&& PAGE_FRAME ≠ re.as_vbase then .error .kassert
    else if re.as_vbase ≤ faultaddress ∧
        faultaddress < u32 (re.as_vbase + re.as_npages * PAGE_SIZE) then
      .ok (faultaddress, re.as_permissions)
    else region_scan faultaddress rest

/-- The stack test of `vm_fault`, entered with `faultadd == 0`: inside the stack range
`faultadd` becomes the address and `permis` gains `PF_W | PF_R`. -/
def stack_check (faultaddress permis : Nat) : Nat × Nat :=
  if sub32 USERSTACK (VM_STACKPAGES * PAGE_SIZE) ≤ faultaddress ∧ faultaddress < USERSTACK then
    (faultaddress, permis ||| (PF_W ||| PF_R))
  else (0, permis)

/-- The loop `for (i=0; i<NUM_TLB; i++)` of `vm_fault`, with `n` iterations left at slot `i`:
the first slot whose `entrylo` has `TLBLO_VALID` clear. -/
def tlb_scan (tlb : Nat → Nat × Nat) : Nat → Nat → Option Nat
  | 0, _ => none
  | n + 1, i => if (tlb i).2 &&& TLBLO_VALID ≠ 0 then tlb_scan tlb n (i + 1) else some i

/-- Store `(ehi, elo)` in TLB slot `i` (`tlb_write`). -/
def tlb_write (tlb : Nat → Nat × Nat) (ehi elo i : Nat) : Nat → Nat × Nat :=
  fun j => if j = i then (ehi, elo) else tlb j

/-- The slot the tail of `vm_fault` writes: the first invalid slot, else the slot picked by
`tlb_random`, which the hardware chooses (`rnd`). -/
def tlb_target (tlb : Nat → Nat × Nat) (rnd : Nat) : Nat :=
  match tlb_scan tlb NUM_TLB 0 with
  | some i => i
  | none => rnd % NUM_TLB

/-- The tail of `vm_fault` (from `splhigh()` on): install `(faultaddress, paddr | VALID)`. -/
def tlb_install (st : Kernel) (rnd faultaddress paddr : Nat) : Kernel :=
  { st with tlb := tlb_write st.tlb faultaddress (paddr ||| TLBLO_VALID) (tlb_target st.tlb rnd) }

/-- The statement `if (permis & PF_W) paddr |= TLBLO_DIRTY`. -/
def mark_dirty (permis paddr : Nat) : Nat :=
  if permis &&& PF_W ≠ 0 then paddr ||| TLBLO_DIRTY else paddr

/-- The function `vm_fault(faulttype, faultaddress)`: the returned code and the state
afterwards. -/
def vm_fault (st : Kernel) (rnd faulttype faultaddress : Nat) : Except Fault (Nat × Kernel) :=
  if faulttype = VM_FAULT_READONLY then .ok (EFAULT, st)
  else if faulttype ≠ VM_FAULT_READ ∧ faulttype ≠ VM_FAULT_WRITE then .ok (EINVAL, st)
  else
    match st.curas with
    | none => .ok (EFAULT, st)
    | some as =>
      let faultaddress := faultaddress &&& PAGE_FRAME
      if as.as_regions_start = [] then .error .kassert
      else
        match region_scan faultaddress as.as_regions_start with
        | .error e => .error e
        | .ok (faultadd, permis) =>
          let fp := if faultadd = 0 then stack_check faultaddress permis else (faultadd, permis)
          if fp.1 = 0 then .ok (EFAULT, st)
          else
            match look_up_page_table st.pt as.addr faultaddress with
            | .error e => .error e
            | .ok paddr =>
              if paddr = 0 then
                let r := alloc_kpages st
                if r.1 = 0 then .error .kassert
                else
                  let mem1 := as_zero_region r.2.mem r.1 1
                  let paddr1 := KVADDR_TO_PADDR r.1
                  match page_table_insert r.2.pt as.addr faultaddress paddr1 with
                  | .error e => .error e
                  | .ok (pt1, _) =>
                    .ok (0, tlb_install { r.2 with pt := pt1, mem := mem1 } rnd faultaddress
                      (mark_dirty fp.2 paddr1))
              else
                .ok (0, tlb_install st rnd faultaddress (mark_dirty fp.2 paddr))

/-- The loop of `copyPageTable(oldas, newas)`, with `n` iterations left and the pointer at
slot `k`.  The result of `page_table_insert` is discarded; the source of the `memcpy` is
`pte->frame_addr` as it reads after the insert. -/
def copy_loop (oldas newas : Nat) : Nat → Nat → Kernel → Except Fault (Nat × Kernel)
  | 0, _, st => .ok (0, st)
  | n + 1, k, st =>
    if (st.pt.slots k).id = oldas then
      let vaddr := (st.pt.slots k).page_addr
      let r := alloc_kpages st
      if r.1 = 0 then .ok (ENOMEM, r.2)
      else
        let mem1 := as_zero_region r.2.mem r.1 1
        let paddr := KVADDR_TO_PADDR r.1
        match page_table_insert r.2.pt newas vaddr paddr with
        | .error e => .error e
        | .ok (pt1, _) =>
          copy_loop oldas newas n (k + 1)
            { r.2 with
              pt := pt1,
              mem := memcpy mem1 r.1 (PADDR_TO_KVADDR (pt1.slots k).frame_addr) PAGE_SIZE }
    else copy_loop oldas newas n (k + 1) st

/-- The function `copyPageTable(oldas, newas)`. -/
def copyPageTable (st : Kernel) (oldas newas : Nat) : Except Fault (Nat × Kernel) :=
  copy_loop oldas newas (st.pt.framenum * 2) 0 st

/-! ## Copying an address space (`as_copy`) -/

/-- The region-copying part of `as_copy`: for the first region and for every further region
of the list the code allocates a node with `kmalloc`, asserts `as_vbase != 0` and
`as_npages != 0` on the source region and stores the three fields through the new pointer.
`avail` is the number of node allocations that succeed before `kmalloc` returns null; the
stores through a null pointer are reported as `Fault.null_deref`. -/
def copy_regions : List as_region → Nat → Except Fault (List as_region)
  | [], _ => .ok []
  | re :: rest, avail =>
    if re.as_vbase = 0 then .error .kassert
    else if re.as_npages = 0 then .error .kassert
    else
      match avail with
      | 0 => .error .null_deref
      | a + 1 =>
        match copy_regions rest a with
        | .error e => .error e
        | .ok l => .ok (⟨re.as_vbase, re.as_npages, re.as_permissions⟩ :: l)

/-- The function `as_copy(old, ret)`.  `newaddr` is the pointer returned by the `kmalloc` of
`as_create` (0 for null) and `avail` the number of region-node allocations that succeed.  The
result is the returned code, the value stored through `ret` (`none` when the function never
stores through it) and the kernel state afterwards. -/
def as_copy (st : Kernel) (old : addrspace) (newaddr avail : Nat) :
    Except Fault (Nat × Option addrspace × Kernel) :=
  if newaddr = 0 then .ok (ENOMEM, none, st)
  else if old.as_regions_start = [] then .ok (0, none, st)
  else
    match copy_regions old.as_regions_start avail with
    | .error e => .error e
    | .ok l =>
      match copyPageTable st old.addr newaddr with
      | .error e => .error e
      | .ok (ret_value, st1) =>
        if ret_value ≠ 0 then .ok (ret_value, none, st1)
        else .ok (0, some ⟨newaddr, l⟩, st1)

/-! ## Sequences of page-table operations -/

/-- Modelled from the spec: `sizeof(struct frame_table_entry)`; the struct is declared in
`vm.h` (not under src) and, as the spec says, stores only the physical address of the next
free frame, one 32-bit word. -/
def SIZEOF_FRAME_TABLE_ENTRY : Nat := 4

/-- Modelled from the spec: `sizeof(struct page_table_entry)`; the struct is declared in
`vm.h` (not under src) and holds the three 32-bit words owner id, virtual page and physical
frame. -/
def SIZEOF_PAGE_TABLE_ENTRY : Nat := 12

/-- Modelled from the spec: the macro `ROUNDUP(a, b)` of `lib.h` (not under src), which rounds
`a` up to a multiple of `b`. -/
def ROUNDUP (a b : Nat) : Nat := (a + b - 1) / b * b

/-- What `vm_bootstrap` leaves behind: the globals `framenum`, `frametop`, `pagetop`,
`freeframe`, the array `frame_table` (the field `next_freeframe` of each entry) and the array
`page_table`. -/
structure Boot where
  framenum : Nat
  frametop : Nat
  pagetop : Nat
  freeframe : Nat
  frame_table : Nat → Nat
  page_table : Nat → page_table_entry

/-- The loop `for (i = 0; i < framenum-1; i++)` of `vm_bootstrap`, with `n` iterations left
at index `i`: entries below `entry_num` get 0, the others the address of the next frame. -/
def boot_frame_loop (frametop entry_num : Nat) : Nat → Nat → (Nat → Nat) → (Nat → Nat)
  | 0, _, ft => ft
  | n + 1, i, ft =>
    boot_frame_loop frametop entry_num n (i + 1)
      (fun j => if j = i then
          (if i < entry_num then 0 else u32 (frametop + (i + 1) * PAGE_SIZE))
        else ft j)

/-- The loop `for (i = 0; i < framenum*2; i++) page_table[i].id = 0` of `vm_bootstrap`, with
`n` iterations left at index `i`. -/
def boot_page_loop : Nat → Nat → (Nat → page_table_entry) → (Nat → page_table_entry)
  | 0, _, s => s
  | n + 1, i, s => boot_page_loop n (i + 1) (setSlot s i { s i with id := 0 })

/-- The function `vm_bootstrap`.  `lasta` and `firsta` are the results of `ram_getsize()` and
`ram_getfirstfree()`; `ft0` and `pt0` are the contents of the memory that becomes the frame
table and the page table. -/
def vm_bootstrap (firsta lasta : Nat) (ft0 : Nat → Nat) (pt0 : Nat → page_table_entry) :
    Except Fault Boot :=
  if firsta &&& PAGE_FRAME ≠ firsta then .error .kassert
  else if lasta &&& PAGE_FRAME ≠ lasta then .error .kassert
  else
    let framenum := sub32 lasta firsta / PAGE_SIZE
    let frame_table_size := ROUNDUP (framenum * SIZEOF_FRAME_TABLE_ENTRY) PAGE_SIZE
    let page_table_size := ROUNDUP (2 * framenum * SIZEOF_PAGE_TABLE_ENTRY) PAGE_SIZE
    let entry_num := frame_table_size / PAGE_SIZE + page_table_size / PAGE_SIZE
    let frametop := firsta
    let pagetop := u32 (firsta + frame_table_size)
    let freeframe := u32 (firsta + frame_table_size + page_table_size)
    if lasta ≤ freeframe then .error .panic
    else
      let ft1 := boot_frame_loop frametop entry_num (framenum - 1) 0 ft0
      let ft2 : Nat → Nat := fun j =>
        if j = framenum - 1 then u32 (frametop + entry_num * PAGE_SIZE) else ft1 j
      .ok { framenum := framenum, frametop := frametop, pagetop := pagetop,
            freeframe := freeframe, frame_table := ft2,
            page_table := boot_page_loop (framenum * 2) 0 pt0 }

/-- The number of metadata pages `vm_bootstrap` computes for `framenum` frames: the frame
table and the page table, each rounded up to whole pages. -/
def metadata_pages (framenum : Nat) : Nat :=
  ROUNDUP (framenum * SIZEOF_FRAME_TABLE_ENTRY) PAGE_SIZE / PAGE_SIZE +
    ROUNDUP (2 * framenum * SIZEOF_PAGE_TABLE_ENTRY) PAGE_SIZE / PAGE_SIZE

/-! ## Predicates used in the statements -/

/-- The three assertions the region loop of `vm_fault` makes about a region. -/
def region_asserts (re : as_region) : Prop :=
  re.as_vbase ≠ 0 ∧ re.as_npages ≠ 0 ∧ re.as_vbase &&& PAGE_FRAME = re.as_vbase

/-- The address `a` lies in `[base, base + npages * PAGE_SIZE)`. -/
def in_region (re : as_region) (a : Nat) : Prop :=
  re.as_vbase ≤ a ∧ a < re.as_vbase + re.as_npages * PAGE_SIZE

instance (re : as_region) : Decidable (region_asserts re) := by
  unfold region_asserts; infer_instance

instance (re : as_region) (a : Nat) : Decidable (in_region re a) := by
  unfold in_region; infer_instance

/-- The address `a` lies in the stack range `[USERSTACK - VM_STACKPAGES * PAGE_SIZE,
USERSTACK)`. -/
def in_stack (a : Nat) : Prop :=
  USERSTACK - VM_STACKPAGES * PAGE_SIZE ≤ a ∧ a < USERSTACK

instance (a : Nat) : Decidable (in_stack a) := by
  unfold in_stack; infer_instance

/-- The containment test of the region loop of `vm_fault`:
`faultaddress >= vbase && faultaddress < vtop`, with `vtop = vbase + npages * PAGE_SIZE`
computed in 32-bit arithmetic. -/
def region_matches (re : as_region) (a : Nat) : Prop :=
  re.as_vbase ≤ a ∧ a < u32 (re.as_vbase + re.as_npages * PAGE_SIZE)

instance (re : as_region) (a : Nat) : Decidable (region_matches re a) := by
  unfold region_matches; infer_instance

/-- The number of slots `j` of `[k, k+n)` whose entry satisfies `P`. -/
def count_range (P : page_table_entry → Bool) (s : Nat → page_table_entry) : Nat → Nat → Nat
  | 0, _ => 0
  | n + 1, k => (if P (s k) then 1 else 0) + count_range P s n (k + 1)

/-- The entry has owner id `id` (for `id = 0`: the slot is empty). -/
def owned_by (id : Nat) (e : page_table_entry) : Bool := e.id == id

/-- The number of slots of the table whose entry satisfies `P`. -/
def PageTable.count (pt : PageTable) (P : page_table_entry → Bool) : Nat :=
  count_range P pt.slots pt.size 0

/-- The number of empty slots among the slots `0 .. framenum`, the ones the loop of
`page_table_insert` and the test after it can reach. -/
def PageTable.reachable_empty (pt : PageTable) : Nat :=
  count_range (owned_by 0) pt.slots (pt.framenum + 1) 0

/-- The cell `j` is one of those that `look_up_page_table(id, va)` reads and in which
`page_table_insert(id, va, pa)` looks for room before its last test: the direct cell of the
page, its mirror, or a slot of the scanned half `0 .. framenum-1`. -/
def PageTable.probed (pt : PageTable) (va j : Nat) : Prop :=
  j = direct_index pt.frametop va ∨ j = direct_index pt.frametop va + pt.framenum ∨
    j < pt.framenum

instance (pt : PageTable) (va j : Nat) : Decidable (pt.probed va j) := by
  unfold PageTable.probed; infer_instance

/-- One of the cells probed for the page `va` is empty. -/
def PageTable.has_room (pt : PageTable) (va : Nat) : Prop :=
  ∃ j, pt.probed va j ∧ (pt.slots j).id = 0

/-- Every occupied slot of the table lies where the lookup of its own page reads. -/
def PageTable.placed (pt : PageTable) : Prop :=
  ∀ j, j < pt.size → (pt.slots j).id ≠ 0 → pt.probed (pt.slots j).page_addr j

/-- Every occupied cell records a non-zero frame. -/
def PageTable.frames_nonzero (pt : PageTable) : Prop :=
  ∀ j, (pt.slots j).id ≠ 0 → (pt.slots j).frame_addr ≠ 0

/-- No two occupied slots of the table hold the same (owner id, virtual page) pair. -/
def PageTable.unique_pairs (pt : PageTable) : Prop :=
  ∀ j k, j < pt.size → k < pt.size → (pt.slots j).id ≠ 0 →
    (pt.slots j).id = (pt.slots k).id → (pt.slots j).page_addr = (pt.slots k).page_addr →
    j = k

/-! ## The invariant of the runs from boot -/

/-- Every occupied slot of the table is one of the slots `0 .. framenum - 1`, the ones the
loop of `look_up_page_table` reads. -/
def PageTable.scanned (pt : PageTable) : Prop :=
  ∀ j, j < pt.size → (pt.slots j).id ≠ 0 → j < pt.framenum

/-- The direct index of every user address lies behind the table. -/
def PageTable.direct_outside (pt : PageTable) : Prop :=
  ∀ va, va < 0x80000000 → pt.size ≤ direct_index pt.frametop va

/-- Every occupied slot of the table holds a user page whose direct cell and mirror cell
are occupied: `page_table_insert` asserts the first and tries these two cells first. -/
def PageTable.cells_taken (pt : PageTable) : Prop :=
  ∀ j, j < pt.size → (pt.slots j).id ≠ 0 →
    (pt.slots j).page_addr < 0x80000000 ∧
    (pt.slots (direct_index pt.frametop (pt.slots j).page_addr)).id ≠ 0 ∧
    (pt.slots (direct_index pt.frametop (pt.slots j).page_addr + pt.framenum)).id ≠ 0

/-- The properties of the page table that every step of a run from boot keeps, `nfree` being
the number of frames the allocator can still hand out: the direct probes lie behind the
table, every occupied cell records a non-zero frame, the occupied slots of the table are
among the scanned ones, hold pairwise different (owner, page) pairs and hold pages whose
direct and mirror cell are occupied, and the slots `0 .. framenum - 1` hold more empty slots
than there are frames left. -/
def PageTable.consistent (pt : PageTable) (nfree : Nat) : Prop :=
  pt.direct_outside ∧ pt.frames_nonzero ∧ pt.scanned ∧ pt.unique_pairs ∧ pt.cells_taken ∧
    nfree < count_range (owned_by 0) pt.slots pt.framenum 0

/-- The properties of the kernel state that every step of a run from boot keeps: the page
table is consistent with the number of frames left, and no frame of the allocator is the
frame at physical address 0. -/
def Kernel.consistent (st : Kernel) : Prop :=
  st.pt.consistent st.free.length ∧ ∀ v ∈ st.free, KVADDR_TO_PADDR v ≠ 0

/-- The page table of the machine with 15 MB of managed memory (`firsta = 0x100000`,
`lasta = 0x1000000`, so `framenum = 3840`, `frametop = 0x100000`, 7680 slots) as
`vm_bootstrap` leaves it, with the memory behind the table zeroed. -/
def table_empty_15mb : PageTable :=
  { framenum := 3840, frametop := 0x100000, slots := fun _ => ⟨0, 0, 0⟩ }

/-- The table of the 15 MB machine with every one of its 7680 slots occupied by owner 7 and
the memory behind the table zeroed. -/
def table_full_15mb : PageTable :=
  { framenum := 3840, frametop := 0x100000,
    slots := fun k =>
      if k < 7680 then ⟨7, 0x400000 + k * 0x1000, 0x200000 + k % 3584 * 0x1000⟩
      else ⟨0, 0, 0⟩ }

/-- The 15 MB machine after the address spaces at `0x8011B010` and `0x8011B410` have each
taken a fault on page 0x400000: the entry of the first lies in the direct cell 525056 of the
page, the entry of the second in the mirror cell 528896, both behind the 7680 slots of the
table, which are empty. -/
def table_shared_page : PageTable :=
  { framenum := 3840, frametop := 0x100000,
    slots := fun k =>
      if k = 525056 then ⟨0x8011B010, 0x400000, 0x11C000⟩
      else if k = 528896 then ⟨0x8011B410, 0x400000, 0x11D000⟩
      else ⟨0, 0, 0⟩ }

/-- The state `table_shared_page` after a third address space, at `0x8011B810`, has taken a
fault on page 0x400000 too: its entry lies in slot 0 of the table. -/
def table_three_owners : PageTable :=
  { framenum := 3840, frametop := 0x100000,
    slots := fun k =>
      if k = 525056 then ⟨0x8011B010, 0x400000, 0x11C000⟩
      else if k = 528896 then ⟨0x8011B410, 0x400000, 0x11D000⟩
      else if k = 0 then ⟨0x8011B810, 0x400000, 0x11E000⟩
      else ⟨0, 0, 0⟩ }

/-- A six-slot table with `framenum = 3` and `frametop = 0x80000000` whose only empty slot
is slot 3; every other slot belongs to owner 7.  It stands in for "some page table" in the
examples of paths of the fault handler that end before the table is written. -/
def table_slot3_free : PageTable :=
  { framenum := 3, frametop := 0x80000000,
    slots := fun k =>
      if k = 3 then ⟨0, 0, 0⟩ else ⟨7, 0x5000 + k * 0x1000, 0x11000 + k * 0x1000⟩ }

/-- An address space with one region, stored at address `0x80045000`. -/
def as_one_region : addrspace :=
  { addr := 0x80045000, as_regions_start := [⟨0x400000, 4, PF_R ||| PF_X⟩] }

/-- An address space with no region yet, stored at address `0x80045000`. -/
def as_empty : addrspace :=
  { addr := 0x80045000, as_regions_start := [] }

/-- A kernel state for the fault handler: the page table `pt`, every byte of memory holding
0xAA, every TLB slot invalid, the current address space stored at `0x80045000` with the
region list `regions`, and the allocator about to hand out the frames at kernel addresses
`0x80020000` and `0x80021000`. -/
def kernel_with (pt : PageTable) (regions : List as_region) : Kernel :=
  { pt := pt, mem := fun _ => 0xAA, tlb := fun _ => (0, 0),
    curas := some ⟨0x80045000, regions⟩, free := [0x80020000, 0x80021000] }

/-- A six-slot table (`framenum = 3`, `frametop = 0x80000000`) with two entries of owner 7,
page 0x1000 in slot 0 and page 0x2000 in slot 1, and the slots 2 .. 5 empty. -/
def table_owner7_two_pages : PageTable :=
  { framenum := 3, frametop := 0x80000000,
    slots := fun k =>
      if k = 0 then ⟨7, 0x1000, 0x11000⟩ else if k = 1 then ⟨7, 0x2000, 0x12000⟩
      else ⟨0, 0, 0⟩ }

/-- A kernel state for the page-table copy: the page table `pt`, the byte at each address
`a` holding `a % 251`, and the allocator about to hand out the frames at kernel addresses
`0x80020000` and `0x80021000`. -/
def kernel_patterned (pt : PageTable) : Kernel :=
  { pt := pt, mem := fun a => a % 251, tlb := fun _ => (0, 0), curas := none,
    free := [0x80020000, 0x80021000] }

/-- The kernel state `kernel_with pt regions` with the allocator exhausted. -/
def kernel_no_frames (pt : PageTable) (regions : List as_region) : Kernel :=
  { kernel_with pt regions with free := [] }

/-- A kernel state of the machine with 15 MB of managed memory: the page table `pt`, every
byte of memory holding 0xAA, the TLB `tlb`, the current address space `as`, and the
allocator about to hand out the frames at the kernel addresses `0x8011C000`, `0x8011D000`
and `0x8011E000` (the first allocatable frame of this machine is `0x11B000`). -/
def kernel_15mb (pt : PageTable) (as : addrspace) (tlb : Nat → Nat × Nat) : Kernel :=
  { pt := pt, mem := fun _ => 0xAA, tlb := tlb, curas := some as,
    free := [0x8011C000, 0x8011D000, 0x8011E000] }

/-- A TLB with every slot invalid. -/
def tlb_invalid : Nat → Nat × Nat := fun _ => (0, 0)

/-- A TLB whose slots 0 .. 4 are valid and whose other slots are invalid. -/
def tlb_five_valid : Nat → Nat × Nat :=
  fun j => if j < 5 then (0x5000 + j * 0x1000, 0x120000 + j * 0x1000 + 0x200) else (0, 0)

/-- An address space stored at `0x8011B010` whose single region is the writable page
`[0x400000, 0x401000)`. -/
def as_writable_page : addrspace :=
  { addr := 0x8011B010, as_regions_start := [⟨0x400000, 1, PF_R ||| PF_W⟩] }

/-- An address space stored at `0x8011B010` with three regions: `[0x500000, 0x504000)`
readable and executable, the read-only page `[0x400000, 0x401000)`, and the writable region
`[0x400000, 0x402000)`, which overlaps the read-only page. -/
def as_overlapping : addrspace :=
  { addr := 0x8011B010,
    as_regions_start :=
      [⟨0x500000, 4, PF_R ||| PF_X⟩, ⟨0x400000, 1, PF_R⟩, ⟨0x400000, 2, PF_R ||| PF_W⟩] }

/-- A kernel state of the 15 MB machine for the page-table copy: the page table
`table_three_owners`, the byte at each address `a` holding `a % 251`, and the allocator about
to hand out the frames at the kernel addresses `0x8011F000` and `0x80120000`. -/
def kernel_copy_15mb : Kernel :=
  { pt := table_three_owners, mem := fun a => a % 251, tlb := fun _ => (0, 0), curas := none,
    free := [0x8011F000, 0x80120000] }

set_option maxRecDepth 100000

/-! ## Theorems -/

theorem setSlot_same (s : Nat → page_table_entry) (k : Nat) (e : page_table_entry) :
    setSlot s k e k = e := by
  simp [setSlot]

theorem setSlot_other (s : Nat → page_table_entry) (k j : Nat) (e : page_table_entry)
    (h : j ≠ k) : setSlot s k e j = s j := by
  simp [setSlot, h]

/-- The delete loop started at slot `k` for `n` iterations clears the owner of exactly the
slots of `[k, k+n)` owned by `id`. -/
theorem delete_loop_slot (id : Nat) (n : Nat) :
    ∀ (k : Nat) (s : Nat → page_table_entry) (j : Nat),
      delete_loop id n k s j =
        if k ≤ j ∧ j < k + n ∧ (s j).id = id then { s j with id := 0 } else s j := by
  induction n with
  | zero =>
    intro k s j
    have : ¬ (k ≤ j ∧ j < k + 0 ∧ (s j).id = id) := by omega
    rw [delete_loop, if_neg this]
  | succ n ih =>
    intro k s j
    rw [delete_loop, ih]
    by_cases hk : (s k).id = id
    · rw [if_pos hk]
      by_cases hj : j = k
      · subst hj
        have h1 : ¬ (j + 1 ≤ j ∧ j < j + 1 + n ∧ (setSlot s j { s j with id := 0 } j).id = id) := by
          omega
        have h2 : j ≤ j ∧ j < j + (n + 1) ∧ (s j).id = id := ⟨le_refl _, by omega, hk⟩
        rw [if_neg h1, if_pos h2, setSlot_same]
      · rw [setSlot_other _ _ _ _ hj]
        by_cases hc : k + 1 ≤ j ∧ j < k + 1 + n ∧ (s j).id = id
        · have h2 : k ≤ j ∧ j < k + (n + 1) ∧ (s j).id = id := ⟨by omega, by omega, hc.2.2⟩
          rw [if_pos hc, if_pos h2]
        · have h2 : ¬ (k ≤ j ∧ j < k + (n + 1) ∧ (s j).id = id) := by
            intro h; exact hc ⟨by omega, by omega, h.2.2⟩
          rw [if_neg hc, if_neg h2]
    · rw [if_neg hk]
      by_cases hc : k + 1 ≤ j ∧ j < k + 1 + n ∧ (s j).id = id
      · have h2 : k ≤ j ∧ j < k + (n + 1) ∧ (s j).id = id := ⟨by omega, by omega, hc.2.2⟩
        rw [if_pos hc, if_pos h2]
      · have h2 : ¬ (k ≤ j ∧ j < k + (n + 1) ∧ (s j).id = id) := by
          intro h
          by_cases hj : j = k
          · subst hj; exact hk h.2.2
          · exact hc ⟨by omega, by omega, h.2.2⟩
        rw [if_neg hc, if_neg h2]

/-- The insert loop never moves the pointer past `k + n`. -/
theorem insert_scan_le (s : Nat → page_table_entry) (n : Nat) :
    ∀ k, insert_scan s n k ≤ k + n := by
  induction n with
  | zero => intro k; simp [insert_scan]
  | succ n ih =>
    intro k
    rw [insert_scan]
    split
    · omega
    · have := ih (k + 1); omega

/-- The insert loop never moves the pointer backwards. -/
theorem insert_scan_ge (s : Nat → page_table_entry) (n : Nat) :
    ∀ k, k ≤ insert_scan s n k := by
  induction n with
  | zero => intro k; simp [insert_scan]
  | succ n ih =>
    intro k
    rw [insert_scan]
    split
    · omega
    · have := ih (k + 1); omega

/-- When no slot of `[k, k+n)` is empty the insert loop runs to its end. -/
theorem insert_scan_full (s : Nat → page_table_entry) (n : Nat) :
    ∀ k, (∀ j, k ≤ j → j < k + n → (s j).id ≠ 0) → insert_scan s n k = k + n := by
  induction n with
  | zero => intro k _; simp [insert_scan]
  | succ n ih =>
    intro k h
    rw [insert_scan, if_neg (h k (le_refl _) (by omega)), ih (k + 1)]
    · omega
    · intro j h1 h2; exact h j (by omega) (by omega)

/-- Every slot the insert loop stepped over is occupied. -/
theorem insert_scan_skipped (s : Nat → page_table_entry) (n : Nat) :
    ∀ k j, k ≤ j → j < insert_scan s n k → (s j).id ≠ 0 := by
  induction n with
  | zero => intro k j h1 h2; simp [insert_scan] at h2; omega
  | succ n ih =>
    intro k j h1 h2
    rw [insert_scan] at h2
    split at h2
    · omega
    · rename_i hk
      by_cases hj : j = k
      · subst hj; exact hk
      · exact ih (k + 1) j (by omega) h2

/-- When the insert loop stops before its end, it stops on an empty slot. -/
theorem insert_scan_stop (s : Nat → page_table_entry) (n : Nat) :
    ∀ k, insert_scan s n k < k + n → (s (insert_scan s n k)).id = 0 := by
  induction n with
  | zero => intro k h; simp [insert_scan] at h
  | succ n ih =>
    intro k h
    rw [insert_scan] at h ⊢
    split
    · assumption
    · rename_i hk
      rw [if_neg hk] at h
      exact ih (k + 1) (by omega)

/-- The lookup loop finds nothing when no slot of `[k, k+n)` matches. -/
theorem look_up_scan_none (s : Nat → page_table_entry) (id va : Nat) (n : Nat) :
    ∀ k, (∀ j, k ≤ j → j < k + n → pte_match (s j) id va = false) →
      look_up_scan s id va n k = none := by
  induction n with
  | zero => intro k _; simp [look_up_scan]
  | succ n ih =>
    intro k h
    rw [look_up_scan, h k (le_refl _) (by omega)]
    simp only [Bool.false_eq_true, if_false]
    exact ih (k + 1) (fun j h1 h2 => h j (by omega) (by omega))

/-- The lookup loop returns the frame of the first matching slot of `[k, k+n)`. -/
theorem look_up_scan_first (s : Nat → page_table_entry) (id va : Nat) (n : Nat) :
    ∀ k m, k ≤ m → m < k + n → pte_match (s m) id va = true →
      (∀ j, k ≤ j → j < m → pte_match (s j) id va = false) →
      look_up_scan s id va n k = some (s m).frame_addr := by
  induction n with
  | zero => intro k m h1 h2; omega
  | succ n ih =>
    intro k m h1 h2 hm hlt
    rw [look_up_scan]
    by_cases hk : m = k
    · subst hk; simp [hm]
    · rw [hlt k (le_refl _) (by omega)]
      simp only [Bool.false_eq_true, if_false]
      exact ih (k + 1) m (by omega) (by omega) hm (fun j h3 h4 => hlt j (by omega) h4)

/-! ### Masks and 32-bit arithmetic -/

theorem land_PAGE_FRAME (x : Nat) (h : x < 2 ^ 32) :
    x &&& PAGE_FRAME = x / PAGE_SIZE * PAGE_SIZE := by
  have e1 : PAGE_FRAME = (2 ^ 20 - 1) <<< 12 := by decide
  have e2 : x / PAGE_SIZE * PAGE_SIZE = (x >>> 12) <<< 12 := by
    rw [Nat.shiftLeft_eq, Nat.shiftRight_eq_div_pow]; rfl
  rw [e1, e2]
  apply Nat.eq_of_testBit_eq
  intro i
  simp only [Nat.testBit_and, Nat.testBit_shiftLeft, Nat.testBit_shiftRight,
    Nat.testBit_two_pow_sub_one]
  by_cases h12 : 12 ≤ i
  · by_cases h32 : i < 32
    · have : i - 12 < 20 := by omega
      simp [h12, this]
    · have hx : x.testBit i = false := by
        apply Nat.testBit_lt_two_pow
        calc x < 2 ^ 32 := h
          _ ≤ 2 ^ i := Nat.pow_le_pow_right (by norm_num) (by omega)
      have : 12 + (i - 12) = i := by omega
      simp [h12, this, hx]
  · simp [h12]

theorem land_PAGE_OFFSET_MASK (x : Nat) : x &&& PAGE_OFFSET_MASK = x % PAGE_SIZE := by
  have e1 : PAGE_OFFSET_MASK = 2 ^ 12 - 1 := by decide
  rw [e1, Nat.and_pow_two_sub_one_eq_mod]; rfl

theorem land_PAGE_FRAME_lt (x : Nat) (h : x < 2 ^ 32) : x &&& PAGE_FRAME < 2 ^ 32 := by
  rw [land_PAGE_FRAME x h]
  have := Nat.div_mul_le_self x PAGE_SIZE
  omega

theorem land_PAGE_FRAME_idem (x : Nat) :
    (x &&& PAGE_FRAME) &&& PAGE_FRAME = x &&& PAGE_FRAME := by
  rw [Nat.land_assoc, Nat.and_self]

/-! ### Region definition and load staging -/

theorem define_region_base_eq (vaddr : Nat) (hv : vaddr < 2 ^ 32) :
    define_region_base vaddr = vaddr / PAGE_SIZE * PAGE_SIZE :=
  land_PAGE_FRAME vaddr hv

theorem define_region_npages_eq (vaddr sz : Nat)
    (hov : sz + vaddr % PAGE_SIZE + PAGE_SIZE - 1 < 2 ^ 32) :
    define_region_npages vaddr sz = (sz + vaddr % PAGE_SIZE + PAGE_SIZE - 1) / PAGE_SIZE := by
  have hP : PAGE_SIZE = 4096 := rfl
  rw [hP] at hov ⊢
  unfold define_region_npages
  simp only [land_PAGE_OFFSET_MASK, u32, hP]
  have h1 : (sz + vaddr % 4096) % 2 ^ 32 = sz + vaddr % 4096 := Nat.mod_eq_of_lt (by omega)
  have h2 : (sz + vaddr % 4096 + 4096 - 1) % 2 ^ 32 = sz + vaddr % 4096 + 4096 - 1 :=
    Nat.mod_eq_of_lt hov
  rw [h1, h2, land_PAGE_FRAME _ hov, hP]
  exact Nat.mul_div_cancel _ (by norm_num)

/-- One staging round trip on a permission value that fits in a byte. -/
theorem stage_unstage_byte (p : Nat) (h : p < 256) :
    (u32 (p <<< 8) ||| p ||| PF_W) >>> 8 = p := by
  have h1 : u32 (p <<< 8) = p <<< 8 := by
    rw [u32, Nat.shiftLeft_eq]
    exact Nat.mod_eq_of_lt (by omega)
  rw [h1]
  apply Nat.eq_of_testBit_eq
  intro i
  have hp : p.testBit (8 + i) = false := by
    apply Nat.testBit_lt_two_pow
    calc p < 2 ^ 8 := h
      _ ≤ 2 ^ (8 + i) := Nat.pow_le_pow_right (by norm_num) (by omega)
  have hw : PF_W.testBit (8 + i) = false := by
    apply Nat.testBit_lt_two_pow
    calc PF_W < 2 ^ 8 := by decide
      _ ≤ 2 ^ (8 + i) := Nat.pow_le_pow_right (by norm_num) (by omega)
  simp [Nat.testBit_shiftRight, Nat.testBit_or, Nat.testBit_shiftLeft, hp, hw]

theorem complete_prepare_region (re : as_region) (h : re.as_permissions < 256) :
    complete_region (prepare_region re) = re := by
  cases re with
  | mk b n p =>
    simp only [complete_region, prepare_region]
    congr
    exact stage_unstage_byte p h

theorem map_complete_prepare (l : List as_region) (h : ∀ re ∈ l, re.as_permissions < 256) :
    (l.map prepare_region).map complete_region = l := by
  induction l with
  | nil => rfl
  | cons a t ih =>
    simp only [List.map_cons]
    rw [complete_prepare_region a (h a (List.mem_cons_self _ _)),
      ih (fun re hre => h re (List.mem_cons_of_mem _ hre))]

/-! ### The page-table functions -/

theorem u32_le (x : Nat) : u32 x ≤ x := Nat.mod_le _ _

theorem pte_match_iff (e : page_table_entry) (id va : Nat) :
    pte_match e id va = true ↔ e.id = id ∧ e.page_addr = va := by
  simp [pte_match]

/-- A frame returned by the lookup loop is the frame of a matching slot of the range. -/
theorem look_up_scan_some (s : Nat → page_table_entry) (id va pa : Nat) (n : Nat) :
    ∀ k, look_up_scan s id va n k = some pa →
      ∃ j, k ≤ j ∧ j < k + n ∧ pte_match (s j) id va = true ∧ (s j).frame_addr = pa := by
  induction n with
  | zero => intro k h; simp [look_up_scan] at h
  | succ n ih =>
    intro k h
    rw [look_up_scan] at h
    by_cases hk : pte_match (s k) id va = true
    · rw [if_pos hk] at h
      exact ⟨k, le_refl _, by omega, hk, Option.some.inj h⟩
    · rw [if_neg hk] at h
      obtain ⟨j, h1, h2, h3, h4⟩ := ih (k + 1) h
      exact ⟨j, by omega, by omega, h3, h4⟩

/-- When the lookup loop finds nothing, no slot of `[k, k+n)` matches. -/
theorem look_up_scan_eq_none (s : Nat → page_table_entry) (id va : Nat) (n : Nat) :
    ∀ k, look_up_scan s id va n k = none →
      ∀ j, k ≤ j → j < k + n → pte_match (s j) id va = false := by
  induction n with
  | zero => intro k _ j h1 h2; omega
  | succ n ih =>
    intro k h j h1 h2
    rw [look_up_scan] at h
    by_cases hk : pte_match (s k) id va = true
    · rw [if_pos hk] at h; cases h
    · rw [if_neg hk] at h
      by_cases hj : j = k
      · rw [hj]; simpa using hk
      · exact ih (k + 1) h j (by omega) (by omega)

/-- The lookup of a page-aligned address returns: either the frame of a matching cell among
the direct cell, the mirror cell and the scanned half, or 0 when none of these cells
matches. -/
theorem look_up_page_table_cases (pt : PageTable) (id va : Nat)
    (hal : va &&& PAGE_FRAME = va) :
    (∃ k, pt.probed va k ∧ pte_match (pt.slots k) id va = true ∧
      look_up_page_table pt id va = .ok (pt.slots k).frame_addr) ∨
    ((∀ j, pt.probed va j → pte_match (pt.slots j) id va = false) ∧
      look_up_page_table pt id va = .ok 0) := by
  unfold look_up_page_table
  simp only [hal, ne_eq, not_true_eq_false, if_false]
  by_cases hd : pte_match (pt.slots (direct_index pt.frametop va)) id va = true
  · left
    exact ⟨_, Or.inl rfl, hd, by rw [if_pos hd]⟩
  · rw [if_neg hd]
    by_cases hm : pte_match (pt.slots (direct_index pt.frametop va + pt.framenum)) id va = true
    · left
      exact ⟨_, Or.inr (Or.inl rfl), hm, by rw [if_pos hm]⟩
    · rw [if_neg hm]
      cases hs : look_up_scan pt.slots id va pt.framenum 0 with
      | some pa =>
        left
        obtain ⟨j, _, hj, hjm, hjf⟩ := look_up_scan_some _ _ _ _ _ _ hs
        exact ⟨j, Or.inr (Or.inr (by omega)), hjm, by rw [hjf]⟩
      | none =>
        right
        refine ⟨?_, rfl⟩
        intro j hj
        rcases hj with h | h | h
        · rw [h]; simpa using hd
        · rw [h]; simpa using hm
        · exact look_up_scan_eq_none _ _ _ _ _ hs j (Nat.zero_le _) (by omega)

/-- A lookup of a pair that none of the probed cells holds returns 0. -/
theorem look_up_page_table_none (pt : PageTable) (id va : Nat)
    (hal : va &&& PAGE_FRAME = va)
    (hnone : ∀ j, pt.probed va j → pte_match (pt.slots j) id va = false) :
    look_up_page_table pt id va = .ok 0 := by
  rcases look_up_page_table_cases pt id va hal with ⟨k, hk, hm, _⟩ | ⟨_, h⟩
  · rw [hnone k hk] at hm; cases hm
  · exact h

/-- A non-zero frame returned by `look_up_page_table` comes from a probed cell that holds
the owner id and the page looked up. -/
theorem look_up_page_table_entry (pt : PageTable) (id va pa : Nat)
    (h : look_up_page_table pt id va = .ok pa) (hpa : pa ≠ 0) :
    ∃ k, pt.probed va k ∧ pt.slots k = ⟨id, va, pa⟩ := by
  have hal : va &&& PAGE_FRAME = va := by
    by_contra hne
    unfold look_up_page_table at h
    rw [if_pos hne] at h
    cases h
  rcases look_up_page_table_cases pt id va hal with ⟨k, hk, hm, hl⟩ | ⟨_, hl⟩
  · rw [hl] at h
    have hf : (pt.slots k).frame_addr = pa := Except.ok.inj h
    obtain ⟨h1, h2⟩ := (pte_match_iff _ _ _).1 hm
    refine ⟨k, hk, ?_⟩
    cases hs : pt.slots k with
    | mk a b c =>
      rw [hs] at h1 h2 hf
      simp only at h1 h2 hf
      rw [h1, h2, hf]
  · rw [hl] at h
    exact absurd (Except.ok.inj h).symm hpa

/-- When exactly one probed cell holds the pair, the lookup returns its frame. -/
theorem look_up_page_table_unique (pt : PageTable) (id va pa k : Nat)
    (hal : va &&& PAGE_FRAME = va)
    (hk : pt.probed va k) (hs : pt.slots k = ⟨id, va, pa⟩)
    (hother : ∀ j, pt.probed va j → j ≠ k → pte_match (pt.slots j) id va = false) :
    look_up_page_table pt id va = .ok pa := by
  rcases look_up_page_table_cases pt id va hal with ⟨j, hj, hm, hl⟩ | ⟨hn, _⟩
  · have hjk : j = k := by
      by_contra hne
      rw [hother j hj hne] at hm
      cases hm
    rw [hl, hjk, hs]
  · have := hn k hk
    rw [hs] at this
    simp [pte_match] at this

/-- The ways `page_table_insert` ends for a user page: it stores the entry in the direct
cell when that is empty, else in the mirror cell when that is empty, else in the cell the
loop stops on when that is empty (a slot of `0 .. framenum`, every slot before it being
occupied), and returns the address of the cell; or these cells are all occupied and it
returns null with nothing changed. -/
theorem page_table_insert_cases (pt : PageTable) (id va pa : Nat)
    (hva : va < 0x80000000) :
    (∃ k, (pt.slots k).id = 0 ∧
        (k = direct_index pt.frametop va ∨
          (k = direct_index pt.frametop va + pt.framenum ∧
            (pt.slots (direct_index pt.frametop va)).id ≠ 0) ∨
          (k ≤ pt.framenum ∧ (pt.slots (direct_index pt.frametop va)).id ≠ 0 ∧
            (pt.slots (direct_index pt.frametop va + pt.framenum)).id ≠ 0 ∧
            ∀ j, j < k → (pt.slots j).id ≠ 0)) ∧
        page_table_insert pt id va pa = .ok (write_entry pt k id va pa, some k)) ∨
    ((pt.slots (direct_index pt.frametop va)).id ≠ 0 ∧
      (pt.slots (direct_index pt.frametop va + pt.framenum)).id ≠ 0 ∧
      (∀ j, j ≤ pt.framenum → (pt.slots j).id ≠ 0) ∧
      page_table_insert pt id va pa = .ok (pt, none)) := by
  have hle := insert_scan_le pt.slots pt.framenum 0
  unfold page_table_insert
  simp only [hva, not_true_eq_false, if_false]
  by_cases hd : (pt.slots (direct_index pt.frametop va)).id = 0
  · left
    exact ⟨_, hd, Or.inl rfl, by rw [if_pos hd]⟩
  · rw [if_neg hd]
    by_cases hm : (pt.slots (direct_index pt.frametop va + pt.framenum)).id = 0
    · left
      exact ⟨_, hm, Or.inr (Or.inl ⟨rfl, hd⟩), by rw [if_pos hm]⟩
    · rw [if_neg hm]
      by_cases hs : (pt.slots (insert_scan pt.slots pt.framenum 0)).id = 0
      · left
        exact ⟨_, hs, Or.inr (Or.inr ⟨by omega, hd, hm,
          fun j hj => insert_scan_skipped pt.slots pt.framenum 0 j (Nat.zero_le _) hj⟩),
          by rw [if_pos hs]⟩
      · right
        rw [if_neg hs]
        refine ⟨hd, hm, ?_, rfl⟩
        have hend : insert_scan pt.slots pt.framenum 0 = pt.framenum := by
          by_contra hne
          exact hs (insert_scan_stop pt.slots pt.framenum 0 (by omega))
        intro j hj
        by_cases hjf : j = pt.framenum
        · rw [hjf, ← hend]; exact hs
        · exact insert_scan_skipped pt.slots pt.framenum 0 j (Nat.zero_le _) (by omega)

/-- A call of `page_table_insert` that returns asserted `va < 0x80000000`. -/
theorem page_table_insert_user (pt pt1 : PageTable) (id va pa : Nat) (ptr : Option Nat)
    (h : page_table_insert pt id va pa = .ok (pt1, ptr)) : va < 0x80000000 := by
  by_contra hva
  unfold page_table_insert at h
  rw [if_pos hva] at h
  cases h

/-- When one of the probed cells is empty, `page_table_insert` stores the entry in a probed
cell that was empty and returns its address. -/
theorem page_table_insert_room (pt : PageTable) (id va pa : Nat)
    (hva : va < 0x80000000) (hroom : pt.has_room va) :
    ∃ k, pt.probed va k ∧ (pt.slots k).id = 0 ∧
      page_table_insert pt id va pa = .ok (write_entry pt k id va pa, some k) := by
  rcases page_table_insert_cases pt id va pa hva with ⟨k, hk0, hk, hins⟩ | ⟨hd, hm, hs, _⟩
  · refine ⟨k, ?_, hk0, hins⟩
    rcases hk with h | ⟨h, _⟩ | ⟨hle, hd, hm, hlow⟩
    · exact Or.inl h
    · exact Or.inr (Or.inl h)
    · obtain ⟨j, hj, hj0⟩ := hroom
      rcases hj with h | h | h
      · rw [h] at hj0; exact absurd hj0 hd
      · rw [h] at hj0; exact absurd hj0 hm
      · refine Or.inr (Or.inr ?_)
        by_contra hge
        exact hlow j (by omega) hj0
  · exfalso
    obtain ⟨j, hj, hj0⟩ := hroom
    rcases hj with h | h | h
    · rw [h] at hj0; exact hd hj0
    · rw [h] at hj0; exact hm hj0
    · exact hs j (by omega) hj0

/-- The lookup that follows an insert into a probed cell returns the inserted frame, when no
probed cell held the pair before. -/
theorem lookup_after_insert (pt pt1 : PageTable) (id va pa k : Nat)
    (hal : va &&& PAGE_FRAME = va)
    (hnew : ∀ j, pt.probed va j → pte_match (pt.slots j) id va = false)
    (hroom : pt.has_room va)
    (h : page_table_insert pt id va pa = .ok (pt1, some k)) :
    look_up_page_table pt1 id va = .ok pa ∧ pt.probed va k ∧ (pt.slots k).id = 0 ∧
      pt1 = write_entry pt k id va pa := by
  have hva := page_table_insert_user pt pt1 id va pa _ h
  obtain ⟨k2, hk2, hk20, hins⟩ := page_table_insert_room pt id va pa hva hroom
  rw [hins] at h
  have h1 : write_entry pt k2 id va pa = pt1 := congrArg Prod.fst (Except.ok.inj h)
  have h2 : k2 = k := Option.some.inj (congrArg Prod.snd (Except.ok.inj h))
  subst h2
  refine ⟨?_, hk2, hk20, h1.symm⟩
  rw [← h1]
  refine look_up_page_table_unique _ id va pa k2 hal hk2 ?_ ?_
  · show setSlot pt.slots k2 ⟨id, va, pa⟩ k2 = _
    rw [setSlot_same]
  · intro j hj hne
    show pte_match (setSlot pt.slots k2 ⟨id, va, pa⟩ j) id va = false
    rw [setSlot_other _ _ _ _ hne]
    exact hnew j hj

/-! ### C1: insert followed by lookup -/

/-- C1: for every page-table state, owner id, page-aligned user page `va` that none of the
cells read by the lookup holds for this owner, and frame `pa`, if one of the cells probed for
`va` is empty (the direct cell, the mirror cell or a slot of the scanned half, as in every
state where fewer than `framenum` mappings exist) and `page_table_insert(id, va, pa)`
succeeds, then `look_up_page_table(id, va)` on the resulting table returns `pa`. -/
theorem insert_then_lookup (pt pt1 : PageTable) (id va pa k : Nat)
    (hal : va &&& PAGE_FRAME = va)
    (hnew : ∀ j, pt.probed va j → pte_match (pt.slots j) id va = false)
    (hroom : pt.has_room va)
    (h : page_table_insert pt id va pa = .ok (pt1, some k)) :
    look_up_page_table pt1 id va = .ok pa :=
  (lookup_after_insert pt pt1 id va pa k hal hnew hroom h).1

/-- No cell of `table_shared_page` belongs to the address space at `0x8011B810`. -/
theorem table_shared_page_no_third (j va : Nat) :
    pte_match (table_shared_page.slots j) 0x8011B810 va = false := by
  unfold table_shared_page
  simp only
  split
  · rfl
  · split <;> rfl

/-- Witness of `insert_then_lookup`: in `table_shared_page` the direct and the mirror cell of
page 0x400000 are taken, so the entry of the address space at `0x8011B810` goes to slot 0,
where the scan of the lookup finds it. -/
theorem insert_then_lookup_witness :
    (0x400000 &&& PAGE_FRAME = 0x400000) ∧
    (∀ j, table_shared_page.probed 0x400000 j →
      pte_match (table_shared_page.slots j) 0x8011B810 0x400000 = false) ∧
    table_shared_page.has_room 0x400000 ∧
    page_table_insert table_shared_page 0x8011B810 0x400000 0x11E000 =
      .ok (write_entry table_shared_page 0 0x8011B810 0x400000 0x11E000, some 0) ∧
    look_up_page_table (write_entry table_shared_page 0 0x8011B810 0x400000 0x11E000)
      0x8011B810 0x400000 = .ok 0x11E000 :=
  ⟨by decide, fun j _ => table_shared_page_no_third j _, ⟨0, by decide, by decide⟩, rfl,
    insert_then_lookup table_shared_page _ 0x8011B810 0x400000 0x11E000 0 (by decide)
      (fun j _ => table_shared_page_no_third j _) ⟨0, by decide, by decide⟩ rfl⟩

/-! ### C2: delete all entries of an owner -/

/-- C2: for every page-table state and every owner id (owner ids are non-zero, 0 marks an
empty slot), after `delete_page_table_entry(id)` no slot among the `2*framenum` slots has
owner id `id`, every slot whose owner was different from `id` is unchanged in all three
fields, and `framenum` and `frametop` are unchanged. -/
theorem delete_page_table_entry_spec (pt : PageTable) (id : Nat) (hid : id ≠ 0) :
    (∀ k, k < pt.size → ((delete_page_table_entry pt id).slots k).id ≠ id) ∧
    (∀ k, k < pt.size → (pt.slots k).id ≠ id →
      (delete_page_table_entry pt id).slots k = pt.slots k) ∧
    (delete_page_table_entry pt id).framenum = pt.framenum ∧
    (delete_page_table_entry pt id).frametop = pt.frametop := by
  refine ⟨?_, ?_, rfl, rfl⟩
  · intro k hk
    simp only [delete_page_table_entry, delete_loop_slot]
    by_cases h : (pt.slots k).id = id
    · have hc : 0 ≤ k ∧ k < 0 + 2 * pt.framenum ∧ (pt.slots k).id = id :=
        ⟨Nat.zero_le _, by simpa [PageTable.size] using hk, h⟩
      rw [if_pos hc]
      exact fun h0 => hid h0.symm
    · have hc : ¬ (0 ≤ k ∧ k < 0 + 2 * pt.framenum ∧ (pt.slots k).id = id) := fun hc => h hc.2.2
      rw [if_neg hc]
      exact h
  · intro k _ h
    simp only [delete_page_table_entry, delete_loop_slot]
    have hc : ¬ (0 ≤ k ∧ k < 0 + 2 * pt.framenum ∧ (pt.slots k).id = id) := fun hc => h hc.2.2
    rw [if_neg hc]

/-- Witness of `delete_page_table_entry_spec`: the address space at `0x8011B810`, which
owns slot 0 of `table_three_owners`, is removed. -/
theorem delete_page_table_entry_spec_witness :
    (0x8011B810 ≠ 0) ∧
    ((∀ k, k < table_three_owners.size →
        ((delete_page_table_entry table_three_owners 0x8011B810).slots k).id ≠ 0x8011B810) ∧
     (∀ k, k < table_three_owners.size → (table_three_owners.slots k).id ≠ 0x8011B810 →
        (delete_page_table_entry table_three_owners 0x8011B810).slots k =
          table_three_owners.slots k) ∧
     (delete_page_table_entry table_three_owners 0x8011B810).framenum =
       table_three_owners.framenum ∧
     (delete_page_table_entry table_three_owners 0x8011B810).frametop =
       table_three_owners.frametop) :=
  ⟨by decide, delete_page_table_entry_spec table_three_owners 0x8011B810 (by decide)⟩

/-! ### C3: insert into a full table -/

/-- C13 fails on the code, on the machine with 15 MB of managed memory (7680 slots).
(1) After boot every slot of the table is empty, yet `page_table_insert` for the stack page
0x7FFF0000 stores the entry in the cell `page_table + 1048304` behind the table: the insert
succeeds, but none of the 7680 slots, all still empty, has received the entry.
(2) When none of the 7680 slots is empty (`table_full_15mb`) the same call does not fail: it
stores the entry in the same cell behind the table and returns its address.
The cause is the unchecked index of C26. -/
theorem insert_ignores_table_bounds :
    direct_index table_empty_15mb.frametop 0x7FFF0000 = 1048304 ∧
    ¬ (1048304 < table_empty_15mb.size) ∧
    (∃ pt1, page_table_insert table_empty_15mb 0x8011B410 0x7FFF0000 0x11D000 =
        .ok (pt1, some 1048304) ∧
      (∀ k, k < table_empty_15mb.size → (pt1.slots k).id = 0)) ∧
    (∀ k, k < table_full_15mb.size → (table_full_15mb.slots k).id ≠ 0) ∧
    (∃ pt1, page_table_insert table_full_15mb 0x8011B410 0x7FFF0000 0x11D000 =
        .ok (pt1, some 1048304)) := by
  refine ⟨by decide, by decide, ⟨_, rfl, ?_⟩, ?_, ⟨_, rfl⟩⟩
  · intro k hk
    have hk2 : k < 7680 := hk
    show (setSlot table_empty_15mb.slots 1048304 _ k).id = 0
    rw [setSlot_other _ _ _ _ (by omega)]
    rfl
  · intro k hk
    have hk2 : k < 7680 := hk
    simp [table_full_15mb, hk2]

/-! ### C27: soundness of the lookup -/

/-- C27 fails on the code.  On the machine with 15 MB of managed memory, after boot,
`page_table_insert(0x8011B010, 0x400000, 0x11C000)` stores the entry in the cell
`page_table + 525056` behind the 7680 slots of the table.  The lookup of the pair reads that
cell through the same unchecked index and returns the frame 0x11C000, although every slot of
the table is empty: no slot of the table holds (id, va, pa).  The cause is the unchecked
index of C26. -/
theorem lookup_returns_frame_from_outside :
    ∃ pt1, page_table_insert table_empty_15mb 0x8011B010 0x400000 0x11C000 =
        .ok (pt1, some 525056) ∧
      ¬ (525056 < pt1.size) ∧
      look_up_page_table pt1 0x8011B010 0x400000 = .ok 0x11C000 ∧
      (∀ k, k < pt1.size → pt1.slots k = ⟨0, 0, 0⟩) ∧
      (∀ k, k < pt1.size → pt1.slots k ≠ ⟨0x8011B010, 0x400000, 0x11C000⟩) := by
  refine ⟨_, rfl, by decide, by decide, ?_, ?_⟩
  · intro k hk
    have hk2 : k < 7680 := hk
    show setSlot table_empty_15mb.slots 525056 _ k = _
    rw [setSlot_other _ _ _ _ (by omega)]
    rfl
  · intro k hk
    have hk2 : k < 7680 := hk
    show setSlot table_empty_15mb.slots 525056 _ k ≠ _
    rw [setSlot_other _ _ _ _ (by omega)]
    show (⟨0, 0, 0⟩ : page_table_entry) ≠ _
    decide

/-! ### C28: the insert and the slots of the table -/

/-- C28 fails on the code.  On the machine with 15 MB of managed memory, with the table of
`table_shared_page` (all 7680 slots empty), `page_table_insert(0x8011B810, 0x401000,
0x11E000)` succeeds and returns the address of the cell `page_table + 525057`, which is not a
slot of the table: it has written the three fields behind the table and has changed none of
the 7680 slots, so no slot of the table holds the entry and the returned address is not the
address of a slot.  The cause is the unchecked index of C26. -/
theorem insert_changes_no_table_slot :
    direct_index table_shared_page.frametop 0x401000 = 525057 ∧
    ¬ (525057 < table_shared_page.size) ∧
    ∃ pt1, page_table_insert table_shared_page 0x8011B810 0x401000 0x11E000 =
        .ok (pt1, some 525057) ∧
      pt1.slots 525057 = ⟨0x8011B810, 0x401000, 0x11E000⟩ ∧
      (∀ k, k < table_shared_page.size → pt1.slots k = table_shared_page.slots k) ∧
      (∀ k, k < table_shared_page.size → pt1.slots k ≠ ⟨0x8011B810, 0x401000, 0x11E000⟩) := by
  refine ⟨by decide, by decide, _, rfl, by decide, ?_, ?_⟩
  · intro k hk
    have hk2 : k < 7680 := hk
    show setSlot table_shared_page.slots 525057 _ k = _
    rw [setSlot_other _ _ _ _ (by omega)]
  · intro k hk
    have hk2 : k < 7680 := hk
    show setSlot table_shared_page.slots 525057 _ k ≠ _
    rw [setSlot_other _ _ _ _ (by omega)]
    simp only [table_shared_page]
    rw [if_neg (by omega), if_neg (by omega)]
    decide

/-! ### C9: load staging round trip -/

/-- C9: for every address space with a non-empty region list whose permission values are
those that `as_define_region` builds from the flags `PF_R`, `PF_W`, `PF_X` (they fit in one
byte, below 256), `as_prepare_load` followed immediately by `as_complete_load` both return 0
and give back the address space unchanged: every region keeps its permissions, base, page
count and position. -/
theorem prepare_complete_load_roundtrip (as : addrspace)
    (hne : as.as_regions_start ≠ [])
    (hp : ∀ re ∈ as.as_regions_start, re.as_permissions < 256) :
    ∃ as1, as_prepare_load as = .ok (0, as1) ∧ as_complete_load as1 = .ok (0, as) := by
  refine ⟨{ as with as_regions_start := as.as_regions_start.map prepare_region }, ?_, ?_⟩
  · simp [as_prepare_load, hne]
  · have hne1 : as.as_regions_start.map prepare_region ≠ [] := by
      simpa using hne
    simp only [as_complete_load, hne1, if_false, map_complete_prepare _ hp]

/-- Witness of `prepare_complete_load_roundtrip`: one readable and executable region. -/
theorem prepare_complete_load_roundtrip_witness :
    (as_one_region.as_regions_start ≠ []) ∧
    (∀ re ∈ as_one_region.as_regions_start, re.as_permissions < 256) ∧
    ∃ as1, as_prepare_load as_one_region = .ok (0, as1) ∧
      as_complete_load as1 = .ok (0, as_one_region) :=
  ⟨by decide, by decide,
    prepare_complete_load_roundtrip as_one_region (by decide) (by decide)⟩

/-! ### C10: alignment arithmetic of region definition -/

/-- C10: for every 32-bit `vaddr` and every `sz` with `sz + (vaddr mod PAGE_SIZE) +
PAGE_SIZE - 1` not overflowing 32 bits, `as_define_region` (its node allocation succeeding)
returns 0 and appends one region whose base is `vaddr` rounded down to a multiple of
`PAGE_SIZE` and whose page count is the ceiling of `(sz + vaddr mod PAGE_SIZE) / PAGE_SIZE`,
that is the least `n` with `sz + vaddr mod PAGE_SIZE ≤ n * PAGE_SIZE`. -/
theorem as_define_region_alignment (as : addrspace) (vaddr sz readable writeable executable : Nat)
    (hv : vaddr < 2 ^ 32)
    (hov : sz + vaddr % PAGE_SIZE + PAGE_SIZE - 1 < 2 ^ 32) :
    ∃ as1 re,
      as_define_region as true vaddr sz readable writeable executable = .ok (0, as1) ∧
      as1.as_regions_start = as.as_regions_start ++ [re] ∧
      re.as_vbase = vaddr / PAGE_SIZE * PAGE_SIZE ∧
      re.as_npages = (sz + vaddr % PAGE_SIZE + PAGE_SIZE - 1) / PAGE_SIZE ∧
      (∀ n, re.as_npages ≤ n ↔ sz + vaddr % PAGE_SIZE ≤ n * PAGE_SIZE) := by
  refine ⟨_, _, rfl, rfl, define_region_base_eq vaddr hv, define_region_npages_eq vaddr sz hov,
    ?_⟩
  intro n
  show define_region_npages vaddr sz ≤ n ↔ _
  rw [define_region_npages_eq vaddr sz hov]
  have hP : PAGE_SIZE = 4096 := rfl
  rw [hP]
  omega

/-- Witness of `as_define_region_alignment`, the example of the specification:
`vaddr = 0x1003`, `sz = 10`, `r = 1`, `w = 0`, `x = 0` gives base 0x1000 and one page. -/
theorem as_define_region_alignment_witness :
    (0x1003 < 2 ^ 32) ∧ (10 + 0x1003 % PAGE_SIZE + PAGE_SIZE - 1 < 2 ^ 32) ∧
    (∃ as1 re,
      as_define_region as_empty true 0x1003 10 1 0 0 = .ok (0, as1) ∧
      as1.as_regions_start = as_empty.as_regions_start ++ [re] ∧
      re.as_vbase = 0x1003 / PAGE_SIZE * PAGE_SIZE ∧
      re.as_npages = (10 + 0x1003 % PAGE_SIZE + PAGE_SIZE - 1) / PAGE_SIZE ∧
      (∀ n, re.as_npages ≤ n ↔ 10 + 0x1003 % PAGE_SIZE ≤ n * PAGE_SIZE)) ∧
    as_define_region as_empty true 0x1003 10 1 0 0 =
      .ok (0, { as_empty with as_regions_start := [⟨0x1000, 1, 1⟩] }) :=
  ⟨by decide, by decide,
    as_define_region_alignment as_empty 0x1003 10 1 0 0 (by decide) (by decide), by decide⟩

/-! ### The region loop and the TLB loop of the fault handler -/

/-- The region loop ends with `faultadd = 0` when every region passes the assertions and
none contains the address. -/
theorem region_scan_miss (va : Nat) (l : List as_region)
    (hwf : ∀ re ∈ l, region_asserts re)
    (hno : ∀ re ∈ l, ¬ in_region re va) :
    region_scan va l = .ok (0, 0) := by
  induction l with
  | nil => rfl
  | cons a t ih =>
    obtain ⟨h1, h2, h3⟩ := hwf a (List.mem_cons_self _ _)
    have h4 : ¬ (a.as_vbase ≤ va ∧ va < u32 (a.as_vbase + a.as_npages * PAGE_SIZE)) := by
      intro h
      exact hno a (List.mem_cons_self _ _)
        ⟨h.1, lt_of_lt_of_le h.2 (u32_le _)⟩
    rw [region_scan]
    simp only [h1, h2, h3, h4, ne_eq, not_true_eq_false, if_false]
    exact ih (fun re hre => hwf re (List.mem_cons_of_mem _ hre))
      (fun re hre => hno re (List.mem_cons_of_mem _ hre))

theorem stack_base_eq : sub32 USERSTACK (VM_STACKPAGES * PAGE_SIZE) =
    USERSTACK - VM_STACKPAGES * PAGE_SIZE := by decide

/-! ### C6: faults outside every region and outside the stack -/

/-- C6 as stated is false: the region loop of `vm_fault` asserts on every region it visits
that the base is non-zero, the page count is non-zero and the base is page-aligned.  With a
region list holding one region of zero pages (as `as_define_region(as, 0x400000, 0, ...)`
builds), or one region based at 0, or one region with an unaligned base, a read fault at
0x10000000, which lies in no region and outside the stack, ends in a failed assertion and not
in the return of `EFAULT`. -/
theorem vm_fault_unresolvable_asserts :
    (¬ in_region ⟨0x400000, 0, 5⟩ 0x10000000 ∧ ¬ in_stack 0x10000000 ∧
      vm_fault (kernel_with table_slot3_free [⟨0x400000, 0, 5⟩]) 0 VM_FAULT_READ 0x10000000 =
        .error .kassert) ∧
    (¬ in_region ⟨0, 1, 5⟩ 0x10000000 ∧
      vm_fault (kernel_with table_slot3_free [⟨0, 1, 5⟩]) 0 VM_FAULT_READ 0x10000000 =
        .error .kassert) ∧
    (¬ in_region ⟨0x400004, 1, 5⟩ 0x10000000 ∧
      vm_fault (kernel_with table_slot3_free [⟨0x400004, 1, 5⟩]) 0 VM_FAULT_READ 0x10000000 =
        .error .kassert) :=
  ⟨⟨by decide, by decide, rfl⟩, ⟨by decide, rfl⟩, ⟨by decide, rfl⟩⟩

/-- C6 (amended): for every state whose current address space has a non-empty region list in
which every region passes the assertions of the handler (non-zero page-aligned base, non-zero
page count), and every read or write fault whose page-aligned address lies in no region
`[base, base + npages*PAGE_SIZE)` and outside the stack range, `vm_fault` returns `EFAULT`
and leaves the whole state, page table and TLB included, unchanged. -/
theorem vm_fault_unresolvable (st : Kernel) (as : addrspace) (rnd faulttype faultaddress : Nat)
    (hcur : st.curas = some as)
    (hne : as.as_regions_start ≠ [])
    (hty : faulttype = VM_FAULT_READ ∨ faulttype = VM_FAULT_WRITE)
    (hwf : ∀ re ∈ as.as_regions_start, region_asserts re)
    (hreg : ∀ re ∈ as.as_regions_start, ¬ in_region re (faultaddress &&& PAGE_FRAME))
    (hstk : ¬ in_stack (faultaddress &&& PAGE_FRAME)) :
    vm_fault st rnd faulttype faultaddress = .ok (EFAULT, st) := by
  have h1 : faulttype ≠ VM_FAULT_READONLY := by
    rcases hty with h | h <;> rw [h] <;> decide
  have h2 : ¬ (faulttype ≠ VM_FAULT_READ ∧ faulttype ≠ VM_FAULT_WRITE) := by
    rcases hty with h | h <;> simp [h]
  have h3 : stack_check (faultaddress &&& PAGE_FRAME) 0 = (0, 0) := by
    unfold stack_check
    rw [stack_base_eq]
    exact if_neg hstk
  unfold vm_fault
  rw [if_neg h1, if_neg h2, hcur]
  simp only [hne, if_false, region_scan_miss _ _ hwf hreg, if_true, h3]

/-- Witness of `vm_fault_unresolvable`: a read fault at 0x10000123 with the single region
`[0x400000, 0x404000)`. -/
theorem vm_fault_unresolvable_witness :
    ((kernel_with table_slot3_free as_one_region.as_regions_start).curas = some as_one_region) ∧
    (as_one_region.as_regions_start ≠ []) ∧
    (∀ re ∈ as_one_region.as_regions_start, region_asserts re) ∧
    (∀ re ∈ as_one_region.as_regions_start, ¬ in_region re (0x10000123 &&& PAGE_FRAME)) ∧
    (¬ in_stack (0x10000123 &&& PAGE_FRAME)) ∧
    vm_fault (kernel_with table_slot3_free as_one_region.as_regions_start) 5 VM_FAULT_READ
      0x10000123 =
      .ok (EFAULT, kernel_with table_slot3_free as_one_region.as_regions_start) :=
  ⟨rfl, by decide, by decide, by decide, by decide,
    vm_fault_unresolvable _ as_one_region 5 VM_FAULT_READ 0x10000123 rfl (by decide)
      (Or.inl rfl) (by decide) (by decide) (by decide)⟩

/-! ### C11: region definition appends at the tail -/

/-- C11 as stated is false: when the `kmalloc` of the new node returns null the function
stores through the null pointer (the test that would panic comes after the stores) and does
not return 0, for an empty and for a non-empty region list alike. -/
theorem define_region_without_node :
    as_define_region as_empty false 0x500000 4096 PF_R PF_W 0 = .error .null_deref ∧
    as_define_region as_one_region false 0x500000 4096 PF_R PF_W 0 = .error .null_deref :=
  ⟨rfl, rfl⟩

/-- C11 (amended): for every address space with region list `L`, empty or not, and all
32-bit arguments, when the allocation of the new node succeeds `as_define_region` returns 0
and the region list afterwards is `L` followed by exactly one new region, whose base and page
count are the aligned ones and whose permissions are `readable | writeable | executable`;
the regions of `L` keep their fields and positions. -/
theorem as_define_region_appends (as : addrspace)
    (vaddr sz readable writeable executable : Nat)
    (hr : readable < 2 ^ 32) (hw : writeable < 2 ^ 32) (hx : executable < 2 ^ 32) :
    as_define_region as true vaddr sz readable writeable executable =
      .ok (0, { addr := as.addr,
                as_regions_start := as.as_regions_start ++
                  [⟨define_region_base vaddr, define_region_npages vaddr sz,
                    readable ||| writeable ||| executable⟩] }) := by
  have h : u32 (readable ||| writeable ||| executable) = readable ||| writeable ||| executable :=
    Nat.mod_eq_of_lt (Nat.or_lt_two_pow (Nat.or_lt_two_pow hr hw) hx)
  unfold as_define_region
  rw [h]
  rfl

/-- Witness of `as_define_region_appends`: a writable data region defined after the region of
`as_one_region`. -/
theorem as_define_region_appends_witness :
    (PF_R < 2 ^ 32) ∧ (PF_W < 2 ^ 32) ∧ (0 < 2 ^ 32) ∧
    as_define_region as_one_region true 0x10000004 0x2000 PF_R PF_W 0 =
      .ok (0, { addr := 0x80045000,
                as_regions_start := [⟨0x400000, 4, PF_R ||| PF_X⟩, ⟨0x10000000, 3, 6⟩] }) :=
  ⟨by decide, by decide, by decide,
    (as_define_region_appends as_one_region 0x10000004 0x2000 PF_R PF_W 0 (by decide)
      (by decide) (by decide)).trans (by decide)⟩

/-! ### C16: rejected fault kinds -/

/-- C16: for every state, every fault address and every choice of the hardware, `vm_fault`
with kind `VM_FAULT_READONLY` returns `EFAULT`, and with a kind other than `VM_FAULT_READ`,
`VM_FAULT_WRITE` and `VM_FAULT_READONLY` it returns `EINVAL`; in both cases the state
afterwards is the state before: no frame is taken from the allocator and the page table, the
memory and the TLB are unchanged. -/
theorem vm_fault_rejects_kind (st : Kernel) (rnd faulttype faultaddress : Nat) :
    (faulttype = VM_FAULT_READONLY →
      vm_fault st rnd faulttype faultaddress = .ok (EFAULT, st)) ∧
    (faulttype ≠ VM_FAULT_READ → faulttype ≠ VM_FAULT_WRITE → faulttype ≠ VM_FAULT_READONLY →
      vm_fault st rnd faulttype faultaddress = .ok (EINVAL, st)) := by
  constructor
  · intro h
    unfold vm_fault
    rw [if_pos h]
  · intro h1 h2 h3
    unfold vm_fault
    rw [if_neg h3, if_pos ⟨h1, h2⟩]

/-- Witness of `vm_fault_rejects_kind`: a read-only fault and a fault of the unknown kind 7
at an address inside a writable region. -/
theorem vm_fault_rejects_kind_witness :
    vm_fault (kernel_with table_slot3_free [⟨0x1000, 1, PF_R ||| PF_W⟩]) 0 VM_FAULT_READONLY
      0x1234 = .ok (EFAULT, kernel_with table_slot3_free [⟨0x1000, 1, PF_R ||| PF_W⟩]) ∧
    vm_fault (kernel_with table_slot3_free [⟨0x1000, 1, PF_R ||| PF_W⟩]) 0 7 0x1234 =
      .ok (EINVAL, kernel_with table_slot3_free [⟨0x1000, 1, PF_R ||| PF_W⟩]) :=
  ⟨(vm_fault_rejects_kind _ 0 VM_FAULT_READONLY 0x1234).1 rfl,
    (vm_fault_rejects_kind _ 0 7 0x1234).2 (by decide) (by decide) (by decide)⟩

/-! ### C15: copying an address space with an empty region list -/

/-- The region-copying part of `as_copy` reproduces the list when every region passes the
two assertions and every node allocation succeeds. -/
theorem copy_regions_ok (l : List as_region) :
    ∀ avail, (∀ re ∈ l, re.as_vbase ≠ 0 ∧ re.as_npages ≠ 0) → l.length ≤ avail →
      copy_regions l avail = .ok l := by
  induction l with
  | nil => intro avail _ _; rfl
  | cons a t ih =>
    intro avail hwf hlen
    obtain ⟨h1, h2⟩ := hwf a (List.mem_cons_self _ _)
    cases avail with
    | zero => simp at hlen
    | succ n =>
      rw [copy_regions, if_neg h1, if_neg h2]
      simp only [ih n (fun re hre => hwf re (List.mem_cons_of_mem _ hre))
        (by simpa using hlen)]

/-- C15 fails on the code.  The address space at address 7 has an empty region list and owns
the two entries of `table_owner7_two_pages`.  `as_copy` creates the new address space, sees
the empty list and returns 0 at once: nothing is stored through `ret`, `copyPageTable` is not
called, the state is unchanged and the new owner id holds no entry. -/
theorem as_copy_empty_list_returns_early :
    table_owner7_two_pages.slots 0 = ⟨7, 0x1000, 0x11000⟩ ∧
    table_owner7_two_pages.slots 1 = ⟨7, 0x2000, 0x12000⟩ ∧
    as_copy (kernel_patterned table_owner7_two_pages) ⟨7, []⟩ 0x80046000 0 =
      .ok (0, none, kernel_patterned table_owner7_two_pages) ∧
    (∀ k, k < table_owner7_two_pages.size →
      ((kernel_patterned table_owner7_two_pages).pt.slots k).id ≠ 0x80046000) :=
  ⟨by decide, by decide, rfl, by decide⟩

/-! ### C18: well-formed regions -/

/-- C18 fails on the code.  For size 0 and a page-aligned `vaddr` the page count computed by
`as_define_region` is `(0 + 4095) & PAGE_FRAME / 4096 = 0`: the call returns 0 and appends a
region of zero pages, which the assertion `re->as_npages != 0` of `vm_fault` and of `as_copy`
rejects. -/
theorem define_region_zero_pages :
    as_define_region as_empty true 0x400000 0 PF_R 0 PF_X =
      .ok (0, { addr := 0x80045000, as_regions_start := [⟨0x400000, 0, 5⟩] }) ∧
    ¬ region_asserts ⟨0x400000, 0, 5⟩ :=
  ⟨by decide, by decide⟩

/-! ### C19: frame exhaustion during a fault -/

/-- C19 fails on the code.  A write fault at 0x1234 in a writable region misses the page
table (`look_up_page_table` returns 0) and the allocator is exhausted (`alloc_kpages`
returns 0).  The statement `KASSERT(vaddr != 0)` stands before `if (vaddr == 0) return
ENOMEM`, so the handler ends in a failed assertion and `ENOMEM` is never returned. -/
theorem fault_without_frames_asserts :
    look_up_page_table table_slot3_free 0x80045000 0x1000 = .ok 0 ∧
    (alloc_kpages (kernel_no_frames table_slot3_free [⟨0x1000, 1, PF_R ||| PF_W⟩])).1 = 0 ∧
    vm_fault (kernel_no_frames table_slot3_free [⟨0x1000, 1, PF_R ||| PF_W⟩]) 0 VM_FAULT_WRITE
      0x1234 = .error .kassert :=
  ⟨by decide, by decide, rfl⟩

/-! ### C24: what the staging stores -/

theorem or_land_self (x w : Nat) : (x ||| w) &&& w = w := by
  apply Nat.eq_of_testBit_eq
  intro i
  simp only [Nat.testBit_and, Nat.testBit_or]
  cases x.testBit i <;> cases w.testBit i <;> rfl

/-- C24 as stated is false: for the permission value `p = 0x100`, which is below `2^24`,
`as_prepare_load` stores `(p << 8) | p | PF_W = 0x10102`, and this value shifted right by 8
bits is 0x101, not `p`: the unshifted copy of `p` in the low bits reaches into the high
part. -/
theorem prepare_load_shift_differs :
    (0x100 < 2 ^ 24) ∧
    as_prepare_load ⟨0x80045000, [⟨0x400000, 1, 0x100⟩]⟩ =
      .ok (0, ⟨0x80045000, [⟨0x400000, 1, 0x10102⟩]⟩) ∧
    (0x10102 >>> 8 = 0x101) :=
  ⟨by decide, by decide, by decide⟩

/-- C24 (amended): for every address space with a non-empty region list, `as_prepare_load`
returns 0 and every region keeps its position, base and page count; its `as_permissions`
afterwards has `PF_W` set, and when the original value `p` fits in the low byte (`p < 256`)
the new value shifted right by 8 bits equals `p`. -/
theorem as_prepare_load_staging (as : addrspace) (hne : as.as_regions_start ≠ []) :
    ∃ as1, as_prepare_load as = .ok (0, as1) ∧
      as1.as_regions_start.length = as.as_regions_start.length ∧
      ∀ (i : Nat) (re : as_region), as.as_regions_start[i]? = some re →
        ∃ re1 : as_region, as1.as_regions_start[i]? = some re1 ∧
          re1.as_vbase = re.as_vbase ∧ re1.as_npages = re.as_npages ∧
          re1.as_permissions &&& PF_W = PF_W ∧
          (re.as_permissions < 256 → re1.as_permissions >>> 8 = re.as_permissions) := by
  refine ⟨{ as with as_regions_start := as.as_regions_start.map prepare_region }, ?_, ?_, ?_⟩
  · simp [as_prepare_load, hne]
  · simp
  · intro i re hre
    refine ⟨prepare_region re, ?_, rfl, rfl, or_land_self _ _, fun hp => stage_unstage_byte _ hp⟩
    simp only [List.getElem?_map, hre, Option.map_some']

/-- Witness of `as_prepare_load_staging`: the readable and executable region of
`as_one_region` is staged as `0x507`. -/
theorem as_prepare_load_staging_witness :
    (as_one_region.as_regions_start ≠ []) ∧
    as_prepare_load as_one_region = .ok (0, ⟨0x80045000, [⟨0x400000, 4, 0x507⟩]⟩) ∧
    ∃ as1, as_prepare_load as_one_region = .ok (0, as1) ∧
      as1.as_regions_start.length = as_one_region.as_regions_start.length ∧
      ∀ (i : Nat) (re : as_region), as_one_region.as_regions_start[i]? = some re →
        ∃ re1 : as_region, as1.as_regions_start[i]? = some re1 ∧
          re1.as_vbase = re.as_vbase ∧ re1.as_npages = re.as_npages ∧
          re1.as_permissions &&& PF_W = PF_W ∧
          (re.as_permissions < 256 → re1.as_permissions >>> 8 = re.as_permissions) :=
  ⟨by decide, by decide, as_prepare_load_staging as_one_region (by decide)⟩

/-! ### C26: the index of the direct probe -/

/-- C26 fails on the code.  `vm_bootstrap` accepts `firsta = 0x100000`, `lasta = 0x1000000`
(15 MB of managed memory) and sets `framenum = 3840`, `frametop = 0x100000`, so the page table
has 7680 slots.  For the page-aligned user address 0x400000 the index is
`(0x80400000 - 0x100000) / 4096 = 525056`, and its mirror is 528896: both probes lie outside
the page table. -/
theorem direct_probe_outside_table :
    ∃ b, vm_bootstrap 0x100000 0x1000000 (fun _ => 0) (fun _ => ⟨0, 0, 0⟩) = .ok b ∧
      b.framenum = 3840 ∧ b.frametop = 0x100000 ∧
      (0x400000 &&& PAGE_FRAME = 0x400000) ∧
      KVADDR_TO_PADDR 0x400000 = 0x80400000 ∧
      direct_index b.frametop 0x400000 = 525056 ∧
      ¬ (direct_index b.frametop 0x400000 < 2 * b.framenum) ∧
      ¬ (direct_index b.frametop 0x400000 + b.framenum < 2 * b.framenum) :=
  ⟨_, rfl, by decide, by decide, by decide, by decide, by decide, by decide, by decide⟩

/-! ### C25: the frame table and the page table after boot -/

/-- The first loop of `vm_bootstrap` started at index `i` for `n` iterations sets exactly the
entries of `[i, i+n)`. -/
theorem boot_frame_loop_entry (frametop entry_num : Nat) (n : Nat) :
    ∀ (i : Nat) (ft : Nat → Nat) (j : Nat),
      boot_frame_loop frametop entry_num n i ft j =
        if i ≤ j ∧ j < i + n then
          (if j < entry_num then 0 else u32 (frametop + (j + 1) * PAGE_SIZE))
        else ft j := by
  induction n with
  | zero =>
    intro i ft j
    have : ¬ (i ≤ j ∧ j < i + 0) := by omega
    rw [boot_frame_loop, if_neg this]
  | succ n ih =>
    intro i ft j
    rw [boot_frame_loop, ih]
    by_cases hj : j = i
    · subst hj
      have h1 : ¬ (j + 1 ≤ j ∧ j < j + 1 + n) := by omega
      have h2 : j ≤ j ∧ j < j + (n + 1) := by omega
      rw [if_neg h1, if_pos h2]
      simp
    · by_cases hc : i + 1 ≤ j ∧ j < i + 1 + n
      · have h2 : i ≤ j ∧ j < i + (n + 1) := by omega
        rw [if_pos hc, if_pos h2]
      · have h2 : ¬ (i ≤ j ∧ j < i + (n + 1)) := by omega
        rw [if_neg hc, if_neg h2, if_neg hj]

/-- The second loop of `vm_bootstrap` started at index `i` for `n` iterations clears the
owner id of exactly the slots of `[i, i+n)`. -/
theorem boot_page_loop_id (n : Nat) :
    ∀ (i : Nat) (s : Nat → page_table_entry) (j : Nat), i ≤ j → j < i + n →
      (boot_page_loop n i s j).id = 0 := by
  have keep : ∀ (n i : Nat) (s : Nat → page_table_entry) (j : Nat), j < i →
      boot_page_loop n i s j = s j := by
    intro n
    induction n with
    | zero => intro i s j _; rfl
    | succ n ih =>
      intro i s j hj
      rw [boot_page_loop, ih (i + 1) _ j (by omega), setSlot_other _ _ _ _ (by omega)]
  induction n with
  | zero => intro i s j h1 h2; omega
  | succ n ih =>
    intro i s j h1 h2
    rw [boot_page_loop]
    by_cases hj : j = i
    · subst hj
      rw [keep n (j + 1) _ j (by omega), setSlot_same]
    · exact ih (i + 1) _ j (by omega) (by omega)

theorem aligned_of_land_PAGE_FRAME (x : Nat) (hx : x < 2 ^ 32) (h : x &&& PAGE_FRAME = x) :
    x % PAGE_SIZE = 0 := by
  rw [land_PAGE_FRAME x hx] at h
  have hP : PAGE_SIZE = 4096 := rfl
  rw [hP] at h ⊢
  omega

theorem u32_pages (x : Nat) : u32 (4096 * x) = 4096 * (x % 2 ^ 20) := by
  unfold u32
  rw [show (2 : Nat) ^ 32 = 4096 * 2 ^ 20 by norm_num, Nat.mul_mod_mul_left]

theorem sub32_pages (l a : Nat) (hl : l < 2 ^ 20) (ha : a < 2 ^ 20) :
    sub32 (4096 * l) (4096 * a) = 4096 * ((l + 2 ^ 20 - a) % 2 ^ 20) := by
  unfold sub32
  rw [Nat.mod_eq_of_lt (by omega : 4096 * l < 2 ^ 32),
    Nat.mod_eq_of_lt (by omega : 4096 * a < 2 ^ 32),
    show 4096 * l + 2 ^ 32 - 4096 * a = 4096 * (l + 2 ^ 20 - a) by omega]
  exact u32_pages _

theorem ROUNDUP_pages (x : Nat) : ROUNDUP x PAGE_SIZE = 4096 * ((x + 4095) / 4096) := by
  unfold ROUNDUP
  have hP : PAGE_SIZE = 4096 := rfl
  rw [hP, Nat.mul_comm, show x + 4096 - 1 = x + 4095 by omega]

/-- The page arithmetic behind the last frame-table entry: if the last index `fn - 1` is
below the number of metadata pages although `vm_bootstrap` did not panic, then the 32-bit
address of the first allocatable frame is 0 (all quantities in pages). -/
theorem boot_last_entry_pages (a l fn c d : Nat) (hl : l < 2 ^ 20)
    (hfn : fn = (l + 2 ^ 20 - a) % 2 ^ 20)
    (hc : c = (fn * 4 + 4095) / 4096) (hd : d = (fn * 24 + 4095) / 4096)
    (hpanic : (a + c + d) % 2 ^ 20 < l) (hm : fn - 1 < c + d) (hpos : 0 < fn) :
    (a + (c + d)) % 2 ^ 20 = 0 := by
  have h4 : fn = 1 ∨ fn = 2 := by omega
  rcases h4 with h | h
  · rw [h] at hc hd hm hfn
    have : c = 1 := by omega
    have : d = 1 := by omega
    omega
  · rw [h] at hc hd hm hfn
    have : c = 1 := by omega
    have : d = 1 := by omega
    omega

/-- The shape of the result of `vm_bootstrap` when it returns. -/
theorem vm_bootstrap_ok (firsta lasta : Nat) (ft0 : Nat → Nat)
    (pt0 : Nat → page_table_entry) (b : Boot)
    (hf : firsta < 2 ^ 32) (hl : lasta < 2 ^ 32)
    (h : vm_bootstrap firsta lasta ft0 pt0 = .ok b) :
    firsta % 4096 = 0 ∧ lasta % 4096 = 0 ∧
    b.framenum = sub32 lasta firsta / PAGE_SIZE ∧ b.frametop = firsta ∧
    b.freeframe = u32 (firsta + ROUNDUP (b.framenum * SIZEOF_FRAME_TABLE_ENTRY) PAGE_SIZE +
      ROUNDUP (2 * b.framenum * SIZEOF_PAGE_TABLE_ENTRY) PAGE_SIZE) ∧
    b.freeframe < lasta ∧
    b.frame_table = (fun j =>
      if j = b.framenum - 1 then u32 (firsta + metadata_pages b.framenum * PAGE_SIZE)
      else boot_frame_loop firsta (metadata_pages b.framenum) (b.framenum - 1) 0 ft0 j) ∧
    b.page_table = boot_page_loop (b.framenum * 2) 0 pt0 := by
  unfold vm_bootstrap at h
  split at h
  · simp at h
  · rename_i ha1
    split at h
    · simp at h
    · rename_i ha2
      simp only at h
      split at h
      · simp at h
      · rename_i hpanic
        have hb := Except.ok.inj h
        have hfa := aligned_of_land_PAGE_FRAME firsta hf (by simpa using ha1)
        have hla := aligned_of_land_PAGE_FRAME lasta hl (by simpa using ha2)
        subst hb
        exact ⟨hfa, hla, rfl, rfl, rfl, Nat.lt_of_not_le hpanic, rfl, rfl⟩

/-- C25: for 32-bit `firsta` and `lasta`, when `vm_bootstrap` does not panic, with
`m = metadata_pages framenum` the number of metadata pages: `framenum` is
`(lasta - firsta) / PAGE_SIZE` and `frametop` is `firsta`; every frame-table entry `i < m`
holds 0; every entry `i` with `m ≤ i < framenum - 1` holds `firsta + (i+1)*PAGE_SIZE` (a
32-bit sum, which does not wrap when `firsta ≤ lasta`); the last entry `framenum - 1` holds
the 32-bit sum `firsta + m*PAGE_SIZE`, which equals `freeframe` and lies below `lasta` (when
the sum does not wrap, `m < framenum` and the entry holds `firsta + m*PAGE_SIZE` itself);
and all `2*framenum` page-table entries have owner id 0. -/
theorem vm_bootstrap_tables (firsta lasta : Nat) (ft0 : Nat → Nat)
    (pt0 : Nat → page_table_entry) (b : Boot)
    (hf : firsta < 2 ^ 32) (hl : lasta < 2 ^ 32)
    (h : vm_bootstrap firsta lasta ft0 pt0 = .ok b) :
    b.framenum = sub32 lasta firsta / PAGE_SIZE ∧ b.frametop = firsta ∧
    (∀ i, i < metadata_pages b.framenum → i < b.framenum → b.frame_table i = 0) ∧
    (∀ i, metadata_pages b.framenum ≤ i → i < b.framenum - 1 →
      b.frame_table i = u32 (firsta + (i + 1) * PAGE_SIZE) ∧
      (firsta ≤ lasta → b.frame_table i = firsta + (i + 1) * PAGE_SIZE)) ∧
    b.frame_table (b.framenum - 1) = u32 (firsta + metadata_pages b.framenum * PAGE_SIZE) ∧
    b.freeframe = u32 (firsta + metadata_pages b.framenum * PAGE_SIZE) ∧
    b.freeframe < lasta ∧
    (firsta + metadata_pages b.framenum * PAGE_SIZE < 2 ^ 32 →
      metadata_pages b.framenum < b.framenum ∧
      b.frame_table (b.framenum - 1) = firsta + metadata_pages b.framenum * PAGE_SIZE) ∧
    (∀ k, k < 2 * b.framenum → (b.page_table k).id = 0) := by
  obtain ⟨hfa, hla, hfn, hft, hfree, hlt, htab, hpt⟩ :=
    vm_bootstrap_ok firsta lasta ft0 pt0 b hf hl h
  have hP : PAGE_SIZE = 4096 := rfl
  have hF : SIZEOF_FRAME_TABLE_ENTRY = 4 := rfl
  have hE : SIZEOF_PAGE_TABLE_ENTRY = 12 := rfl
  -- the quantities in pages
  have hfa2 : firsta = 4096 * (firsta / 4096) := by omega
  have hla2 : lasta = 4096 * (lasta / 4096) := by omega
  have hfn2 : b.framenum = (lasta / 4096 + 2 ^ 20 - firsta / 4096) % 2 ^ 20 := by
    rw [hfn, hP, hfa2, hla2, sub32_pages _ _ (by omega) (by omega),
      Nat.mul_div_cancel_left _ (by norm_num : 0 < 4096)]
    simp only [Nat.mul_div_cancel_left _ (by norm_num : 0 < 4096)]
  have hm : metadata_pages b.framenum =
      (b.framenum * 4 + 4095) / 4096 + (b.framenum * 24 + 4095) / 4096 := by
    unfold metadata_pages
    rw [ROUNDUP_pages, ROUNDUP_pages, hP, hF, hE,
      Nat.mul_div_cancel_left _ (by norm_num : 0 < 4096),
      Nat.mul_div_cancel_left _ (by norm_num : 0 < 4096)]
    have : 2 * b.framenum * 12 = b.framenum * 24 := by omega
    rw [this]
  have hsum : u32 (firsta + metadata_pages b.framenum * PAGE_SIZE) =
      4096 * ((firsta / 4096 + metadata_pages b.framenum) % 2 ^ 20) := by
    rw [← u32_pages, hP]
    congr 1
    omega
  have hfree2 : b.freeframe = u32 (firsta + metadata_pages b.framenum * PAGE_SIZE) := by
    rw [hfree]
    unfold metadata_pages
    rw [ROUNDUP_pages, ROUNDUP_pages, hP,
      Nat.mul_div_cancel_left _ (by norm_num : 0 < 4096),
      Nat.mul_div_cancel_left _ (by norm_num : 0 < 4096)]
    congr 1
    omega
  refine ⟨hfn, hft, ?_, ?_, ?_, hfree2, hlt, ?_, ?_⟩
  · intro i hi1 hi2
    rw [htab]
    by_cases hlast : i = b.framenum - 1
    · simp only [hlast, if_true]
      have hz := boot_last_entry_pages (firsta / 4096) (lasta / 4096) b.framenum
        ((b.framenum * 4 + 4095) / 4096) ((b.framenum * 24 + 4095) / 4096) (by omega) hfn2
        rfl rfl
        (by
          rw [hfree2, hsum, hm] at hlt
          omega)
        (by rw [hm] at hi1; omega) (by omega)
      rw [hsum, hm, hz]
    · simp only [hlast, if_false]
      rw [boot_frame_loop_entry]
      have h1 : 0 ≤ i ∧ i < 0 + (b.framenum - 1) := by omega
      rw [if_pos h1, if_pos hi1]
  · intro i hi1 hi2
    have hlast : i ≠ b.framenum - 1 := by omega
    rw [htab]
    simp only [hlast, if_false]
    rw [boot_frame_loop_entry]
    have h1 : 0 ≤ i ∧ i < 0 + (b.framenum - 1) := by omega
    rw [if_pos h1, if_neg (by omega)]
    refine ⟨rfl, ?_⟩
    intro hle
    unfold u32
    rw [hP]
    apply Nat.mod_eq_of_lt
    have h5 : lasta / 4096 + 2 ^ 20 - firsta / 4096 = 2 ^ 20 + (lasta / 4096 - firsta / 4096) := by
      omega
    rw [h5, Nat.add_mod_left, Nat.mod_eq_of_lt (by omega)] at hfn2
    omega
  · rw [htab]
    simp only [if_true]
  · intro hnw
    have hu : u32 (firsta + metadata_pages b.framenum * PAGE_SIZE) =
        firsta + metadata_pages b.framenum * PAGE_SIZE := Nat.mod_eq_of_lt hnw
    rw [hfree2, hu, hP] at hlt
    have hmf : metadata_pages b.framenum < b.framenum := by
      by_cases hle : firsta / 4096 ≤ lasta / 4096
      · have h5 : lasta / 4096 + 2 ^ 20 - firsta / 4096 =
            2 ^ 20 + (lasta / 4096 - firsta / 4096) := by omega
        rw [h5, Nat.add_mod_left, Nat.mod_eq_of_lt (by omega)] at hfn2
        omega
      · omega
    refine ⟨hmf, ?_⟩
    rw [htab]
    simp only [if_true]
    exact hu
  · intro k hk
    rw [hpt]
    exact boot_page_loop_id _ 0 pt0 k (Nat.zero_le _) (by omega)

/-- Witness of `vm_bootstrap_tables`: 15 MB of managed memory, `firsta = 0x100000` and
`lasta = 0x1000000`, which gives 3840 frames and 27 metadata pages. -/
theorem vm_bootstrap_tables_witness :
    ∃ b, vm_bootstrap 0x100000 0x1000000 (fun _ => 0xdeadbeef) (fun _ => ⟨7, 7, 7⟩) = .ok b ∧
      metadata_pages b.framenum = 27 ∧
      b.framenum = sub32 0x1000000 0x100000 / PAGE_SIZE ∧ b.frametop = 0x100000 ∧
      (∀ i, i < metadata_pages b.framenum → i < b.framenum → b.frame_table i = 0) ∧
      (∀ i, metadata_pages b.framenum ≤ i → i < b.framenum - 1 →
        b.frame_table i = u32 (0x100000 + (i + 1) * PAGE_SIZE) ∧
        (0x100000 ≤ 0x1000000 → b.frame_table i = 0x100000 + (i + 1) * PAGE_SIZE)) ∧
      b.frame_table (b.framenum - 1) = u32 (0x100000 + metadata_pages b.framenum * PAGE_SIZE) ∧
      b.freeframe = u32 (0x100000 + metadata_pages b.framenum * PAGE_SIZE) ∧
      b.freeframe < 0x1000000 ∧
      (0x100000 + metadata_pages b.framenum * PAGE_SIZE < 2 ^ 32 →
        metadata_pages b.framenum < b.framenum ∧
        b.frame_table (b.framenum - 1) = 0x100000 + metadata_pages b.framenum * PAGE_SIZE) ∧
      (∀ k, k < 2 * b.framenum → (b.page_table k).id = 0) :=
  ⟨_, rfl, by decide,
    vm_bootstrap_tables 0x100000 0x1000000 (fun _ => 0xdeadbeef) (fun _ => ⟨7, 7, 7⟩) _
      (by decide) (by decide) rfl⟩

/-! ### Successful faults -/

/-- A fault that returns 0 went through the address check and then took the hit path or the
miss path; the state afterwards is the result of `tlb_install`. -/
theorem vm_fault_ok_zero (st st1 : Kernel) (rnd faulttype faultaddress : Nat)
    (h : vm_fault st rnd faulttype faultaddress = .ok (0, st1)) :
    ∃ as faultadd permis0,
      st.curas = some as ∧ (faulttype = VM_FAULT_READ ∨ faulttype = VM_FAULT_WRITE) ∧
      region_scan (faultaddress &&& PAGE_FRAME) as.as_regions_start = .ok (faultadd, permis0) ∧
      (if faultadd = 0 then stack_check (faultaddress &&& PAGE_FRAME) permis0
        else (faultadd, permis0)).1 ≠ 0 ∧
      ∃ paddr st2, st2.tlb = st.tlb ∧
        st1 = tlb_install st2 rnd (faultaddress &&& PAGE_FRAME)
          (mark_dirty (if faultadd = 0 then stack_check (faultaddress &&& PAGE_FRAME) permis0
            else (faultadd, permis0)).2 paddr) ∧
        ((look_up_page_table st.pt as.addr (faultaddress &&& PAGE_FRAME) = .ok paddr ∧
            paddr ≠ 0 ∧ st2 = st) ∨
         (look_up_page_table st.pt as.addr (faultaddress &&& PAGE_FRAME) = .ok 0 ∧
            ∃ v rest pt1 ptr, st.free = v :: rest ∧ v ≠ 0 ∧ paddr = KVADDR_TO_PADDR v ∧
              page_table_insert st.pt as.addr (faultaddress &&& PAGE_FRAME) (KVADDR_TO_PADDR v) =
                .ok (pt1, ptr) ∧
              st2 = { st with free := rest, pt := pt1, mem := as_zero_region st.mem v 1 })) := by
  have hE1 : EFAULT ≠ 0 := by decide
  have hE2 : EINVAL ≠ 0 := by decide
  unfold vm_fault at h
  split at h
  · exact absurd (congrArg Prod.fst (Except.ok.inj h)) hE1
  · split at h
    · exact absurd (congrArg Prod.fst (Except.ok.inj h)) hE2
    · rename_i hty
      have hty2 : faulttype = VM_FAULT_READ ∨ faulttype = VM_FAULT_WRITE := by
        by_cases h1 : faulttype = VM_FAULT_READ
        · exact Or.inl h1
        · by_cases h2 : faulttype = VM_FAULT_WRITE
          · exact Or.inr h2
          · exact absurd ⟨h1, h2⟩ hty
      split at h
      · exact absurd (congrArg Prod.fst (Except.ok.inj h)) hE1
      · rename_i as hcur
        simp only at h
        split at h
        · simp at h
        · split at h
          · simp at h
          · rename_i faultadd permis0 hscan
            refine ⟨as, faultadd, permis0, hcur, hty2, hscan, ?_⟩
            generalize (if faultadd = 0 then stack_check (faultaddress &&& PAGE_FRAME) permis0
              else (faultadd, permis0)) = fp at h ⊢
            split at h
            · exact absurd (congrArg Prod.fst (Except.ok.inj h)) hE1
            · rename_i hfp
              refine ⟨hfp, ?_⟩
              split at h
              · simp at h
              · rename_i paddr hlook
                split at h
                · rename_i hp0
                  split at h
                  · simp at h
                  · rename_i hv
                    split at h
                    · simp at h
                    · rename_i pt1 ptr hins
                      have hst := (congrArg Prod.snd (Except.ok.inj h)).symm
                      cases hf : st.free with
                      | nil =>
                        exfalso
                        apply hv
                        simp [alloc_kpages, hf]
                      | cons v rest =>
                        have ha : alloc_kpages st = (v, { st with free := rest }) := by
                          unfold alloc_kpages; rw [hf]
                        rw [ha] at hst hins hv
                        simp only at hst hins hv
                        rw [hp0] at hlook
                        exact ⟨KVADDR_TO_PADDR v,
                          { st with free := rest, pt := pt1, mem := as_zero_region st.mem v 1 },
                          rfl, hst,
                          Or.inr ⟨hlook, v, rest, pt1, ptr, rfl, hv, rfl, hins, rfl⟩⟩
                · rename_i hp0
                  have hst := (congrArg Prod.snd (Except.ok.inj h)).symm
                  exact ⟨paddr, st, rfl, hst, Or.inl ⟨hlook, hp0, rfl⟩⟩

/-! ### C23: the TLB slot written by a successful fault -/

/-- The scan of the TLB stops at the first slot whose `entrylo` has `TLBLO_VALID` clear. -/
theorem tlb_scan_first (tlb : Nat → Nat × Nat) (n : Nat) :
    ∀ i j, i ≤ j → j < i + n → (tlb j).2 &&& TLBLO_VALID = 0 →
      (∀ k, i ≤ k → k < j → (tlb k).2 &&& TLBLO_VALID ≠ 0) →
      tlb_scan tlb n i = some j := by
  induction n with
  | zero => intro i j h1 h2; omega
  | succ n ih =>
    intro i j h1 h2 hj hlow
    unfold tlb_scan
    by_cases hij : i = j
    · subst hij
      rw [if_neg (by rw [hj]; simp)]
    · rw [if_pos (hlow i (Nat.le_refl _) (by omega))]
      exact ih (i + 1) j (by omega) (by omega) hj (fun k hk1 hk2 => hlow k (by omega) hk2)

/-- The scan of the TLB finds no slot exactly when every slot it visits is valid. -/
theorem tlb_scan_none (tlb : Nat → Nat × Nat) (n : Nat) :
    ∀ i, tlb_scan tlb n i = none ↔ ∀ k, i ≤ k → k < i + n → (tlb k).2 &&& TLBLO_VALID ≠ 0 := by
  induction n with
  | zero =>
    intro i
    constructor
    · intro _ k h1 h2; omega
    · intro _; rfl
  | succ n ih =>
    intro i
    unfold tlb_scan
    by_cases hv : (tlb i).2 &&& TLBLO_VALID ≠ 0
    · rw [if_pos hv, ih (i + 1)]
      constructor
      · intro h k h1 h2
        by_cases hk : k = i
        · rw [hk]; exact hv
        · exact h k (by omega) (by omega)
      · intro h k h1 h2
        exact h k (by omega) (by omega)
    · rw [if_neg hv]
      constructor
      · intro h; cases h
      · intro h; exact absurd (h i (Nat.le_refl _) (by omega)) hv

/-- C23: for every state and every fault that `vm_fault` resolves (it returns 0), there are a
frame and a word `elo`, equal to `frame | TLBLO_VALID` or to
`frame | TLBLO_DIRTY | TLBLO_VALID`, the frame being the one found in the page table or the
one just allocated, such that: if slot `j` is the lowest-indexed of the `NUM_TLB` slots whose
`TLBLO_VALID` bit is clear, then afterwards slot `j` holds `(page, elo)` and every other slot
is unchanged; the scan falls through to the random-replacement write exactly when every
slot is valid, and then the slot picked by the hardware (`rnd % NUM_TLB`) holds
`(page, elo)` and every other slot is unchanged. -/
theorem vm_fault_tlb_slot (st st1 : Kernel) (rnd faulttype faultaddress : Nat)
    (h : vm_fault st rnd faulttype faultaddress = .ok (0, st1)) :
    ∃ frame elo,
      (elo = frame ||| TLBLO_VALID ∨ elo = frame ||| TLBLO_DIRTY ||| TLBLO_VALID) ∧
      (∃ as, st.curas = some as ∧
        ((look_up_page_table st.pt as.addr (faultaddress &&& PAGE_FRAME) = .ok frame ∧
            frame ≠ 0) ∨
          (look_up_page_table st.pt as.addr (faultaddress &&& PAGE_FRAME) = .ok 0 ∧
            ∃ v rest, st.free = v :: rest ∧ frame = KVADDR_TO_PADDR v))) ∧
      (∀ j, j < NUM_TLB → (st.tlb j).2 &&& TLBLO_VALID = 0 →
        (∀ i, i < j → (st.tlb i).2 &&& TLBLO_VALID ≠ 0) →
        st1.tlb j = (faultaddress &&& PAGE_FRAME, elo) ∧
          ∀ i, i ≠ j → st1.tlb i = st.tlb i) ∧
      (tlb_scan st.tlb NUM_TLB 0 = none ↔
        ∀ i, i < NUM_TLB → (st.tlb i).2 &&& TLBLO_VALID ≠ 0) ∧
      ((∀ i, i < NUM_TLB → (st.tlb i).2 &&& TLBLO_VALID ≠ 0) →
        st1.tlb (rnd % NUM_TLB) = (faultaddress &&& PAGE_FRAME, elo) ∧
          ∀ i, i ≠ rnd % NUM_TLB → st1.tlb i = st.tlb i) := by
  obtain ⟨as, faultadd, permis0, hcur, _, _, _, paddr, st2, htlb, hst1, hpath⟩ :=
    vm_fault_ok_zero st st1 rnd faulttype faultaddress h
  generalize (if faultadd = 0 then stack_check (faultaddress &&& PAGE_FRAME) permis0
    else (faultadd, permis0)) = fp at hst1
  have hnone : tlb_scan st.tlb NUM_TLB 0 = none ↔
      ∀ i, i < NUM_TLB → (st.tlb i).2 &&& TLBLO_VALID ≠ 0 := by
    rw [tlb_scan_none]
    constructor
    · intro hk i hi; exact hk i (Nat.zero_le _) (by omega)
    · intro hk i _ hi; exact hk i (by omega)
  have hwr : st1.tlb = tlb_write st.tlb (faultaddress &&& PAGE_FRAME)
      (mark_dirty fp.2 paddr ||| TLBLO_VALID) (tlb_target st.tlb rnd) := by
    rw [hst1]; unfold tlb_install; rw [htlb]
  refine ⟨paddr, mark_dirty fp.2 paddr ||| TLBLO_VALID, ?_, ⟨as, hcur, ?_⟩, ?_, hnone, ?_⟩
  · unfold mark_dirty
    by_cases hw : fp.2 &&& PF_W ≠ 0
    · rw [if_pos hw]; exact Or.inr rfl
    · rw [if_neg hw]; exact Or.inl rfl
  · rcases hpath with ⟨hl, hp, _⟩ | ⟨hl, v, rest, _, _, hf, _, hp, _, _⟩
    · exact Or.inl ⟨hl, hp⟩
    · exact Or.inr ⟨hl, v, rest, hf, hp⟩
  · intro j hj hinv hlow
    have ht : tlb_target st.tlb rnd = j := by
      unfold tlb_target
      rw [tlb_scan_first st.tlb NUM_TLB 0 j (Nat.zero_le _) (by omega) hinv
        (fun k _ hk => hlow k hk)]
    rw [hwr, ht]
    refine ⟨?_, ?_⟩
    · unfold tlb_write; rw [if_pos rfl]
    · intro i hi; unfold tlb_write; rw [if_neg hi]
  · intro hall
    have ht : tlb_target st.tlb rnd = rnd % NUM_TLB := by
      unfold tlb_target
      rw [hnone.mpr hall]
    rw [hwr, ht]
    refine ⟨?_, ?_⟩
    · unfold tlb_write; rw [if_pos rfl]
    · intro i hi; unfold tlb_write; rw [if_neg hi]

/-! ### The paths of the fault handler after the address check -/

/-- The hit path of `vm_fault`: the address passed the region or stack check and the lookup
returned a non-zero frame. -/
theorem vm_fault_hit (st : Kernel) (as : addrspace) (rnd faulttype faultaddress : Nat)
    (faultadd permis0 paddr : Nat)
    (hcur : st.curas = some as)
    (hty : faulttype = VM_FAULT_READ ∨ faulttype = VM_FAULT_WRITE)
    (hne : as.as_regions_start ≠ [])
    (hscan : region_scan (faultaddress &&& PAGE_FRAME) as.as_regions_start =
      .ok (faultadd, permis0))
    (hfp : (if faultadd = 0 then stack_check (faultaddress &&& PAGE_FRAME) permis0
      else (faultadd, permis0)).1 ≠ 0)
    (hlook : look_up_page_table st.pt as.addr (faultaddress &&& PAGE_FRAME) = .ok paddr)
    (hp : paddr ≠ 0) :
    vm_fault st rnd faulttype faultaddress =
      .ok (0, tlb_install st rnd (faultaddress &&& PAGE_FRAME)
        (mark_dirty (if faultadd = 0 then stack_check (faultaddress &&& PAGE_FRAME) permis0
          else (faultadd, permis0)).2 paddr)) := by
  have h1 : faulttype ≠ VM_FAULT_READONLY := by
    rcases hty with h | h <;> rw [h] <;> decide
  have h2 : ¬ (faulttype ≠ VM_FAULT_READ ∧ faulttype ≠ VM_FAULT_WRITE) := by
    rcases hty with h | h <;> simp [h]
  unfold vm_fault
  rw [if_neg h1, if_neg h2]
  simp only [hcur, hne, if_false, hscan, hfp, hlook, hp]

/-- The miss path of `vm_fault`: the address passed the region or stack check, the lookup
returned 0, the allocator handed out `v ≠ 0` and `page_table_insert` returned. -/
theorem vm_fault_miss (st : Kernel) (as : addrspace) (rnd faulttype faultaddress : Nat)
    (faultadd permis0 v : Nat) (rest : List Nat) (pt1 : PageTable) (ptr : Option Nat)
    (hcur : st.curas = some as)
    (hty : faulttype = VM_FAULT_READ ∨ faulttype = VM_FAULT_WRITE)
    (hne : as.as_regions_start ≠ [])
    (hscan : region_scan (faultaddress &&& PAGE_FRAME) as.as_regions_start =
      .ok (faultadd, permis0))
    (hfp : (if faultadd = 0 then stack_check (faultaddress &&& PAGE_FRAME) permis0
      else (faultadd, permis0)).1 ≠ 0)
    (hlook : look_up_page_table st.pt as.addr (faultaddress &&& PAGE_FRAME) = .ok 0)
    (hfree : st.free = v :: rest) (hv : v ≠ 0)
    (hins : page_table_insert st.pt as.addr (faultaddress &&& PAGE_FRAME) (KVADDR_TO_PADDR v) =
      .ok (pt1, ptr)) :
    vm_fault st rnd faulttype faultaddress =
      .ok (0, tlb_install
        { st with free := rest, pt := pt1, mem := as_zero_region st.mem v 1 } rnd
        (faultaddress &&& PAGE_FRAME)
        (mark_dirty (if faultadd = 0 then stack_check (faultaddress &&& PAGE_FRAME) permis0
          else (faultadd, permis0)).2 (KVADDR_TO_PADDR v))) := by
  have h1 : faulttype ≠ VM_FAULT_READONLY := by
    rcases hty with h | h <;> rw [h] <;> decide
  have h2 : ¬ (faulttype ≠ VM_FAULT_READ ∧ faulttype ≠ VM_FAULT_WRITE) := by
    rcases hty with h | h <;> simp [h]
  have ha : alloc_kpages st = (v, { st with free := rest }) := by
    unfold alloc_kpages; rw [hfree]
  unfold vm_fault
  rw [if_neg h1, if_neg h2]
  simp only [hcur, hne, if_false, hscan, hfp, hlook, if_true, ha, hv, hins]

/-- The lookup of a page-aligned address returns. -/
theorem look_up_page_table_total (pt : PageTable) (id va : Nat)
    (hal : va &&& PAGE_FRAME = va) : ∃ pa, look_up_page_table pt id va = .ok pa := by
  rcases look_up_page_table_cases pt id va hal with ⟨k, _, _, h⟩ | ⟨_, h⟩
  · exact ⟨_, h⟩
  · exact ⟨_, h⟩

/-- The insert of a user page returns, and a null result leaves the table as it was. -/
theorem page_table_insert_total (pt : PageTable) (id va pa : Nat) (hva : va < 0x80000000) :
    ∃ pt1 ptr, page_table_insert pt id va pa = .ok (pt1, ptr) ∧
      pt1.framenum = pt.framenum ∧ pt1.frametop = pt.frametop ∧ (ptr = none → pt1 = pt) := by
  rcases page_table_insert_cases pt id va pa hva with ⟨k, _, _, h⟩ | ⟨_, _, _, h⟩
  · exact ⟨_, _, h, rfl, rfl, fun hn => by cases hn⟩
  · exact ⟨_, _, h, rfl, rfl, fun _ => rfl⟩

/-! ### The first fault after boot on the 15 MB machine -/

/-- On the 15 MB machine after boot, a read or write fault of `as_writable_page` at
0x400004 misses, takes the frame at `0x8011C000`, stores the entry in the direct cell 525056
of the page and installs the mapping of page 0x400000 to frame 0x11C000 with `TLBLO_DIRTY`. -/
theorem first_fault_15mb (tlb : Nat → Nat × Nat) (rnd faulttype : Nat)
    (hty : faulttype = VM_FAULT_READ ∨ faulttype = VM_FAULT_WRITE) :
    vm_fault (kernel_15mb table_empty_15mb as_writable_page tlb) rnd faulttype 0x400004 =
      .ok (0, tlb_install
        { kernel_15mb table_empty_15mb as_writable_page tlb with
          free := [0x8011D000, 0x8011E000],
          pt := write_entry table_empty_15mb 525056 0x8011B010 0x400000 0x11C000,
          mem := as_zero_region (fun _ => 0xAA) 0x8011C000 1 }
        rnd 0x400000 (0x11C000 ||| TLBLO_DIRTY)) :=
  vm_fault_miss (kernel_15mb table_empty_15mb as_writable_page tlb)
    as_writable_page rnd faulttype 0x400004 0x400000 (PF_R ||| PF_W) 0x8011C000
    [0x8011D000, 0x8011E000]
    (write_entry table_empty_15mb 525056 0x8011B010 0x400000 0x11C000) (some 525056)
    rfl hty (by decide) (by decide) (by decide)
    (look_up_page_table_none _ _ _ (by decide) (fun _ _ => rfl)) rfl (by decide)
    (show page_table_insert table_empty_15mb 0x8011B010 0x400000 0x11C000 = _ from rfl)

/-- Witness of `vm_fault_tlb_slot`: on the 15 MB machine after boot, a write fault at
0x400004 in the writable page `[0x400000, 0x401000)` with the TLB slots 0 .. 4 valid
resolves through the miss path (frame 0x11C000) and the mapping lands in slot 5. -/
theorem vm_fault_tlb_slot_witness :
    ∃ st1,
      vm_fault (kernel_15mb table_empty_15mb as_writable_page tlb_five_valid) 70
        VM_FAULT_WRITE 0x400004 = .ok (0, st1) ∧
      st1.tlb 5 = (0x400000, 0x11C000 ||| TLBLO_DIRTY ||| TLBLO_VALID) ∧
      st1.tlb 4 = (0x9000, 0x124200) ∧ st1.tlb 6 = (0, 0) ∧
      ∃ frame elo,
        (elo = frame ||| TLBLO_VALID ∨ elo = frame ||| TLBLO_DIRTY ||| TLBLO_VALID) ∧
        (∃ as, some as_writable_page = some as ∧
          ((look_up_page_table table_empty_15mb as.addr (0x400004 &&& PAGE_FRAME) = .ok frame ∧
              frame ≠ 0) ∨
            (look_up_page_table table_empty_15mb as.addr (0x400004 &&& PAGE_FRAME) = .ok 0 ∧
              ∃ v rest, [0x8011C000, 0x8011D000, 0x8011E000] = v :: rest ∧
                frame = KVADDR_TO_PADDR v))) ∧
        (∀ j, j < NUM_TLB → (tlb_five_valid j).2 &&& TLBLO_VALID = 0 →
          (∀ i, i < j → (tlb_five_valid i).2 &&& TLBLO_VALID ≠ 0) →
          st1.tlb j = (0x400004 &&& PAGE_FRAME, elo) ∧
            ∀ i, i ≠ j → st1.tlb i = tlb_five_valid i) ∧
        (tlb_scan tlb_five_valid NUM_TLB 0 = none ↔
          ∀ i, i < NUM_TLB → (tlb_five_valid i).2 &&& TLBLO_VALID ≠ 0) ∧
        ((∀ i, i < NUM_TLB → (tlb_five_valid i).2 &&& TLBLO_VALID ≠ 0) →
          st1.tlb (70 % NUM_TLB) = (0x400004 &&& PAGE_FRAME, elo) ∧
            ∀ i, i ≠ 70 % NUM_TLB → st1.tlb i = tlb_five_valid i) :=
  ⟨_, first_fault_15mb tlb_five_valid 70 VM_FAULT_WRITE (Or.inr rfl), by decide, by decide,
    by decide,
    vm_fault_tlb_slot
      (kernel_15mb table_empty_15mb as_writable_page tlb_five_valid) _ 70
      VM_FAULT_WRITE 0x400004 (first_fault_15mb tlb_five_valid 70 VM_FAULT_WRITE (Or.inr rfl))⟩

/-! ### C21: faults in the stack range -/

/-- C21 as stated is false: before the stack test the region loop of `vm_fault` asserts on
every region that the base is non-zero, the page count is non-zero and the base is
page-aligned.  On the 15 MB machine after boot, with the single region of zero pages that
`as_define_region(as, 0x400000, 0, ...)` builds, a write fault at the stack page 0x7FFF0000
(in the stack range, in no region) ends in a failed assertion although the lookup misses,
the allocator has a frame and `page_table_insert` would store the entry. -/
theorem vm_fault_stack_asserts :
    in_stack (0x7FFF0000 &&& PAGE_FRAME) ∧
    ¬ in_region ⟨0x400000, 0, 5⟩ (0x7FFF0000 &&& PAGE_FRAME) ∧
    ([⟨0x400000, 0, 5⟩] : List as_region) ≠ [] ∧
    look_up_page_table table_empty_15mb 0x8011B010 (0x7FFF0000 &&& PAGE_FRAME) = .ok 0 ∧
    (alloc_kpages (kernel_15mb table_empty_15mb ⟨0x8011B010, [⟨0x400000, 0, 5⟩]⟩
      tlb_invalid)).1 = 0x8011C000 ∧
    (∃ pt1 k, page_table_insert table_empty_15mb 0x8011B010 (0x7FFF0000 &&& PAGE_FRAME)
      (KVADDR_TO_PADDR 0x8011C000) = .ok (pt1, some k)) ∧
    vm_fault (kernel_15mb table_empty_15mb ⟨0x8011B010, [⟨0x400000, 0, 5⟩]⟩ tlb_invalid) 0
      VM_FAULT_WRITE 0x7FFF0000 = .error .kassert :=
  ⟨by decide, by decide, by decide,
    look_up_page_table_none _ _ _ (by decide) (fun _ _ => rfl), by decide, ⟨_, _, rfl⟩, rfl⟩

/-- C21 (amended): for every state whose current address space has a non-empty region list
in which every region passes the assertions of the handler (non-zero page-aligned base,
non-zero page count), and every read or write fault whose page-aligned address lies in the
stack range and in no region, if the allocator hands out a non-zero frame `v` when the
lookup finds no frame, then `vm_fault` returns 0; the region loop leaves the permission 0,
the stack test makes it `PF_R | PF_W` (with `PF_X` clear), and the TLB slot chosen by the
handler holds the page with `frame | TLBLO_DIRTY | TLBLO_VALID`, whose `TLBLO_DIRTY` bit is
set, the frame being the one found by the lookup or the one allocated; every other TLB slot
is unchanged. -/
theorem vm_fault_stack (st : Kernel) (as : addrspace) (rnd faulttype faultaddress : Nat)
    (v : Nat) (rest : List Nat)
    (hcur : st.curas = some as)
    (hne : as.as_regions_start ≠ [])
    (hty : faulttype = VM_FAULT_READ ∨ faulttype = VM_FAULT_WRITE)
    (hwf : ∀ re ∈ as.as_regions_start, region_asserts re)
    (hreg : ∀ re ∈ as.as_regions_start, ¬ in_region re (faultaddress &&& PAGE_FRAME))
    (hstk : in_stack (faultaddress &&& PAGE_FRAME))
    (hmiss : look_up_page_table st.pt as.addr (faultaddress &&& PAGE_FRAME) = .ok 0 →
      st.free = v :: rest ∧ v ≠ 0) :
    ∃ st1 frame,
      vm_fault st rnd faulttype faultaddress = .ok (0, st1) ∧
      ((look_up_page_table st.pt as.addr (faultaddress &&& PAGE_FRAME) = .ok frame ∧
          frame ≠ 0 ∧ st1.pt = st.pt ∧ st1.free = st.free) ∨
        (look_up_page_table st.pt as.addr (faultaddress &&& PAGE_FRAME) = .ok 0 ∧
          frame = KVADDR_TO_PADDR v ∧ st1.free = rest)) ∧
      region_scan (faultaddress &&& PAGE_FRAME) as.as_regions_start = .ok (0, 0) ∧
      stack_check (faultaddress &&& PAGE_FRAME) 0 = (faultaddress &&& PAGE_FRAME, PF_R ||| PF_W) ∧
      (PF_R ||| PF_W) &&& PF_X = 0 ∧
      st1.tlb (tlb_target st.tlb rnd) =
        (faultaddress &&& PAGE_FRAME, frame ||| TLBLO_DIRTY ||| TLBLO_VALID) ∧
      (frame ||| TLBLO_DIRTY ||| TLBLO_VALID) &&& TLBLO_DIRTY = TLBLO_DIRTY ∧
      (∀ i, i ≠ tlb_target st.tlb rnd → st1.tlb i = st.tlb i) := by
  have hscan := region_scan_miss _ _ hwf hreg
  have h3 : stack_check (faultaddress &&& PAGE_FRAME) 0 =
      (faultaddress &&& PAGE_FRAME, PF_R ||| PF_W) := by
    unfold stack_check
    rw [stack_base_eq]
    exact if_pos hstk
  have hva0 : faultaddress &&& PAGE_FRAME ≠ 0 := by
    have := hstk.1
    intro h0
    rw [h0] at this
    exact absurd this (by decide)
  have hva : faultaddress &&& PAGE_FRAME < 0x80000000 := hstk.2
  have hfp : (if (0 : Nat) = 0 then stack_check (faultaddress &&& PAGE_FRAME) 0
      else (0, 0)).1 ≠ 0 := by
    rw [if_pos rfl, h3]; exact hva0
  have hfp2 : (if (0 : Nat) = 0 then stack_check (faultaddress &&& PAGE_FRAME) 0
      else (0, 0)).2 = PF_R ||| PF_W := by
    rw [if_pos rfl, h3]
  have hmd : ∀ x, mark_dirty (PF_R ||| PF_W) x = x ||| TLBLO_DIRTY := by
    intro x; unfold mark_dirty; rw [if_pos (by decide)]
  have hbit : ∀ x, (x ||| TLBLO_DIRTY ||| TLBLO_VALID) &&& TLBLO_DIRTY = TLBLO_DIRTY := by
    intro x
    rw [Nat.lor_assoc, Nat.lor_comm TLBLO_DIRTY TLBLO_VALID, ← Nat.lor_assoc]
    exact or_land_self _ _
  obtain ⟨paddr, hlook⟩ := look_up_page_table_total st.pt as.addr _
    (land_PAGE_FRAME_idem faultaddress)
  by_cases hp : paddr = 0
  · rw [hp] at hlook
    obtain ⟨hfree, hv⟩ := hmiss hlook
    obtain ⟨pt1, ptr, hins, _⟩ := page_table_insert_total st.pt as.addr _ (KVADDR_TO_PADDR v) hva
    have hrun := vm_fault_miss st as rnd faulttype faultaddress 0 0 v rest pt1 ptr hcur hty hne
      hscan hfp hlook hfree hv hins
    rw [hfp2, hmd] at hrun
    refine ⟨_, KVADDR_TO_PADDR v, hrun, Or.inr ⟨hlook, rfl, rfl⟩, hscan, h3, by decide, ?_,
      hbit _, ?_⟩
    · unfold tlb_install tlb_write; simp only [if_true]
    · intro i hi; unfold tlb_install tlb_write; simp only [if_neg hi]
  · have hrun := vm_fault_hit st as rnd faulttype faultaddress 0 0 paddr hcur hty hne hscan hfp
      hlook hp
    rw [hfp2, hmd] at hrun
    refine ⟨_, paddr, hrun, Or.inl ⟨hlook, hp, rfl, rfl⟩, hscan, h3, by decide, ?_, hbit _, ?_⟩
    · unfold tlb_install tlb_write; simp only [if_true]
    · intro i hi; unfold tlb_install tlb_write; simp only [if_neg hi]

/-- Witness of `vm_fault_stack`: on the 15 MB machine after boot, a write fault at
0x7FFF0123 of the address space `as_writable_page`; the lookup misses, the frame at
`0x8011C000` is allocated and slot 0 of the TLB maps the stack page to it. -/
theorem vm_fault_stack_witness :
    ((kernel_15mb table_empty_15mb as_writable_page tlb_invalid).curas =
      some as_writable_page) ∧
    (as_writable_page.as_regions_start ≠ []) ∧
    (∀ re ∈ as_writable_page.as_regions_start, region_asserts re) ∧
    (∀ re ∈ as_writable_page.as_regions_start,
      ¬ in_region re (0x7FFF0123 &&& PAGE_FRAME)) ∧
    in_stack (0x7FFF0123 &&& PAGE_FRAME) ∧
    look_up_page_table table_empty_15mb as_writable_page.addr (0x7FFF0123 &&& PAGE_FRAME) =
      .ok 0 ∧
    ∃ st1 frame,
      vm_fault (kernel_15mb table_empty_15mb as_writable_page tlb_invalid) 0 VM_FAULT_WRITE
        0x7FFF0123 = .ok (0, st1) ∧
      ((look_up_page_table table_empty_15mb as_writable_page.addr
            (0x7FFF0123 &&& PAGE_FRAME) = .ok frame ∧
          frame ≠ 0 ∧ st1.pt = table_empty_15mb ∧
          st1.free = [0x8011C000, 0x8011D000, 0x8011E000]) ∨
        (look_up_page_table table_empty_15mb as_writable_page.addr
            (0x7FFF0123 &&& PAGE_FRAME) = .ok 0 ∧
          frame = KVADDR_TO_PADDR 0x8011C000 ∧ st1.free = [0x8011D000, 0x8011E000])) ∧
      region_scan (0x7FFF0123 &&& PAGE_FRAME) as_writable_page.as_regions_start = .ok (0, 0) ∧
      stack_check (0x7FFF0123 &&& PAGE_FRAME) 0 = (0x7FFF0123 &&& PAGE_FRAME, PF_R ||| PF_W) ∧
      (PF_R ||| PF_W) &&& PF_X = 0 ∧
      st1.tlb (tlb_target tlb_invalid 0) =
        (0x7FFF0123 &&& PAGE_FRAME, frame ||| TLBLO_DIRTY ||| TLBLO_VALID) ∧
      (frame ||| TLBLO_DIRTY ||| TLBLO_VALID) &&& TLBLO_DIRTY = TLBLO_DIRTY ∧
      (∀ i, i ≠ tlb_target tlb_invalid 0 → st1.tlb i = tlb_invalid i) :=
  ⟨rfl, by decide, by decide, by decide, by decide,
    look_up_page_table_none _ _ _ (by decide) (fun _ _ => rfl),
    vm_fault_stack (kernel_15mb table_empty_15mb as_writable_page tlb_invalid)
      as_writable_page 0 VM_FAULT_WRITE 0x7FFF0123 0x8011C000 [0x8011D000, 0x8011E000]
      rfl (by decide) (Or.inr rfl) (by decide) (by decide) (by decide)
      (fun _ => ⟨rfl, by decide⟩)⟩

/-! ### C22: the first matching region and the dirty bit -/

/-- For a region with a page-aligned base that ends below 2^32, the containment test of the
handler on the page-aligned fault address agrees with the membership of the fault address in
`[base, base + npages * PAGE_SIZE)`. -/
theorem region_test_iff (re : as_region) (fa : Nat) (hfa : fa < 2 ^ 32)
    (hal : re.as_vbase &&& PAGE_FRAME = re.as_vbase)
    (hend : re.as_vbase + re.as_npages * PAGE_SIZE < 2 ^ 32) :
    (re.as_vbase ≤ fa &&& PAGE_FRAME ∧
      fa &&& PAGE_FRAME < u32 (re.as_vbase + re.as_npages * PAGE_SIZE)) ↔ in_region re fa := by
  have hb := aligned_of_land_PAGE_FRAME re.as_vbase (by omega) hal
  have hu : u32 (re.as_vbase + re.as_npages * PAGE_SIZE) =
      re.as_vbase + re.as_npages * PAGE_SIZE := Nat.mod_eq_of_lt hend
  rw [hu, land_PAGE_FRAME fa hfa]
  unfold in_region
  have hP : PAGE_SIZE = 4096 := rfl
  rw [hP] at hb ⊢
  omega

/-- When the region loop ends normally, the regions before `re` do not contain the fault
address, `re` contains it and these regions end below 2^32, the loop yields the page-aligned
address and the permissions of `re`. -/
theorem region_scan_first_in (fa : Nat) (hfa : fa < 2 ^ 32) (post : List as_region)
    (re : as_region) (r : Nat × Nat) (hre : in_region re fa)
    (hre_end : re.as_vbase + re.as_npages * PAGE_SIZE < 2 ^ 32) :
    ∀ pre : List as_region,
      region_scan (fa &&& PAGE_FRAME) (pre ++ re :: post) = .ok r →
      (∀ p ∈ pre, ¬ in_region p fa) →
      (∀ p ∈ pre, p.as_vbase + p.as_npages * PAGE_SIZE < 2 ^ 32) →
      r = (fa &&& PAGE_FRAME, re.as_permissions) ∧ fa &&& PAGE_FRAME ≠ 0 := by
  intro pre
  induction pre with
  | nil =>
    intro h _ _
    rw [List.nil_append, region_scan] at h
    split at h
    · simp at h
    · rename_i h0
      split at h
      · simp at h
      · split at h
        · simp at h
        · rename_i hal
          have hal2 : re.as_vbase &&& PAGE_FRAME = re.as_vbase := not_not.mp hal
          have ht := (region_test_iff re fa hfa hal2 hre_end).2 hre
          rw [if_pos ht] at h
          have := ht.1
          exact ⟨(Except.ok.inj h).symm, by omega⟩
  | cons a t ih =>
    intro h hpre hend
    rw [List.cons_append, region_scan] at h
    split at h
    · simp at h
    · split at h
      · simp at h
      · split at h
        · simp at h
        · rename_i hal
          have hal2 : a.as_vbase &&& PAGE_FRAME = a.as_vbase := not_not.mp hal
          have hn : ¬ (a.as_vbase ≤ fa &&& PAGE_FRAME ∧
              fa &&& PAGE_FRAME < u32 (a.as_vbase + a.as_npages * PAGE_SIZE)) := by
            intro ht
            exact hpre a (List.mem_cons_self _ _)
              ((region_test_iff a fa hfa hal2 (hend a (List.mem_cons_self _ _))).1 ht)
          rw [if_neg hn] at h
          exact ih h (fun p hp => hpre p (List.mem_cons_of_mem _ hp))
            (fun p hp => hend p (List.mem_cons_of_mem _ hp))

/-- The physical address of a page-aligned kernel address is page-aligned. -/
theorem KVADDR_TO_PADDR_aligned (v : Nat) (h : v % PAGE_SIZE = 0) :
    KVADDR_TO_PADDR v % PAGE_SIZE = 0 := by
  have hP : PAGE_SIZE = 4096 := rfl
  have hK : MIPS_KSEG0 = 0x80000000 := rfl
  unfold KVADDR_TO_PADDR sub32
  rw [hP] at h ⊢
  rw [hK]
  omega

/-- With a page-aligned frame, the word `entrylo` built by the handler has `TLBLO_DIRTY` set
exactly when the permissions include `PF_W`. -/
theorem dirty_bit_iff (perms frame : Nat) (hfr : frame % PAGE_SIZE = 0) :
    (mark_dirty perms frame ||| TLBLO_VALID) &&& TLBLO_DIRTY ≠ 0 ↔ perms &&& PF_W ≠ 0 := by
  unfold mark_dirty
  by_cases hw : perms &&& PF_W ≠ 0
  · rw [if_pos hw]
    have : (frame ||| TLBLO_DIRTY ||| TLBLO_VALID) &&& TLBLO_DIRTY = TLBLO_DIRTY := by
      rw [Nat.lor_assoc, Nat.lor_comm TLBLO_DIRTY TLBLO_VALID, ← Nat.lor_assoc]
      exact or_land_self _ _
    rw [this]
    exact ⟨fun _ => hw, fun _ => by decide⟩
  · rw [if_neg hw]
    have h0 : (frame ||| TLBLO_VALID) &&& TLBLO_DIRTY = 0 := by
      have hD : TLBLO_DIRTY = 2 ^ 10 := by decide
      have hV : TLBLO_VALID = 2 ^ 9 := by decide
      have hP : PAGE_SIZE = 4096 := rfl
      rw [hP] at hfr
      apply Nat.eq_of_testBit_eq
      intro i
      rw [Nat.testBit_and, Nat.testBit_or, Nat.zero_testBit, hD, hV, Nat.testBit_two_pow,
        Nat.testBit_two_pow]
      by_cases hi : 10 = i
      · subst hi
        have hf : frame.testBit 10 = false := by
          rw [Nat.testBit_to_div_mod]
          have : frame / 1024 % 2 = 0 := by omega
          simp [this]
        simp [hf]
      · simp [hi]
    rw [h0]
    exact ⟨fun h => absurd rfl h, fun h => absurd h hw⟩

/-- C22 as stated is false for a region that reaches the end of the 32-bit address space:
the handler computes `vtop = vbase + npages * PAGE_SIZE` in 32-bit arithmetic.  The region
`[0x400000, 0x400000 + 0xFFC00 * PAGE_SIZE)`, which `as_define_region(as, 0x400000,
0xFFC00000, PF_R, 0, 0)` builds, contains the address 0x400000 and has no `PF_W`, but its
`vtop` wraps to 0, so the test of the handler fails for it.  With a second, writable region
`[0x400000, 0x401000)` behind it, a read fault at 0x400000 on the 15 MB machine after boot
is resolved (it returns 0) with the permissions of the second region: the mapping installed
in TLB slot 0 has `TLBLO_DIRTY` set although the first region containing the address has no
`PF_W`. -/
theorem wrapped_region_skipped :
    define_region_base 0x400000 = 0x400000 ∧
    define_region_npages 0x400000 0xFFC00000 = 0xFFC00 ∧
    in_region ⟨0x400000, 0xFFC00, PF_R⟩ 0x400000 ∧
    PF_R &&& PF_W = 0 ∧
    ¬ region_matches ⟨0x400000, 0xFFC00, PF_R⟩ (0x400000 &&& PAGE_FRAME) ∧
    ∃ st1,
      vm_fault (kernel_15mb table_empty_15mb
        ⟨0x8011B010, [⟨0x400000, 0xFFC00, PF_R⟩, ⟨0x400000, 1, PF_R ||| PF_W⟩]⟩ tlb_invalid) 0
        VM_FAULT_READ 0x400000 = .ok (0, st1) ∧
      st1.tlb 0 = (0x400000, 0x11C000 ||| TLBLO_DIRTY ||| TLBLO_VALID) ∧
      (st1.tlb 0).2 &&& TLBLO_DIRTY ≠ 0 :=
  ⟨by decide, by decide, by decide, by decide, by decide, _,
    vm_fault_miss (kernel_15mb table_empty_15mb
        ⟨0x8011B010, [⟨0x400000, 0xFFC00, PF_R⟩, ⟨0x400000, 1, PF_R ||| PF_W⟩]⟩ tlb_invalid)
      ⟨0x8011B010, [⟨0x400000, 0xFFC00, PF_R⟩, ⟨0x400000, 1, PF_R ||| PF_W⟩]⟩ 0 VM_FAULT_READ
      0x400000 0x400000 (PF_R ||| PF_W) 0x8011C000 [0x8011D000, 0x8011E000]
      (write_entry table_empty_15mb 525056 0x8011B010 0x400000 0x11C000) (some 525056)
      rfl (Or.inl rfl) (by decide) (by decide) (by decide)
      (look_up_page_table_none _ _ _ (by decide) (fun _ _ => rfl)) rfl (by decide)
      (show page_table_insert table_empty_15mb 0x8011B010 0x400000 0x11C000 = _ from rfl),
    by decide, by decide⟩

/-- C22 (amended): take a state in which the frames recorded in the page table and the frames
the allocator hands out are page-aligned, and a region list `pre ++ re :: post` in which
`re` is the first region containing the fault address, the regions up to `re` ending below
2^32.  For every read or write fault that `vm_fault` resolves (it returns 0), on a page-table
hit (the frame found) and on a miss (the frame allocated) alike, the TLB slot chosen by the
handler holds the page with the frame, `TLBLO_VALID`, and `TLBLO_DIRTY` or-ed in when `re`
has `PF_W`; its `TLBLO_DIRTY` bit is set if and only if `re` has `PF_W` in its permissions,
whatever the regions of `post` are. -/
theorem vm_fault_first_region (st st1 : Kernel) (as : addrspace)
    (rnd faulttype faultaddress : Nat) (pre post : List as_region) (re : as_region)
    (hfa : faultaddress < 2 ^ 32)
    (hcur : st.curas = some as)
    (hlist : as.as_regions_start = pre ++ re :: post)
    (hpre : ∀ p ∈ pre, ¬ in_region p faultaddress)
    (hre : in_region re faultaddress)
    (hend : ∀ p ∈ pre ++ [re], p.as_vbase + p.as_npages * PAGE_SIZE < 2 ^ 32)
    (hpt : ∀ k, (st.pt.slots k).frame_addr % PAGE_SIZE = 0)
    (hfree : ∀ v ∈ st.free, v % PAGE_SIZE = 0)
    (h : vm_fault st rnd faulttype faultaddress = .ok (0, st1)) :
    ∃ frame,
      ((look_up_page_table st.pt as.addr (faultaddress &&& PAGE_FRAME) = .ok frame ∧
          frame ≠ 0 ∧ st1.pt = st.pt ∧ st1.free = st.free) ∨
        (look_up_page_table st.pt as.addr (faultaddress &&& PAGE_FRAME) = .ok 0 ∧
          ∃ v rest, st.free = v :: rest ∧ frame = KVADDR_TO_PADDR v ∧ st1.free = rest)) ∧
      st1.tlb (tlb_target st.tlb rnd) =
        (faultaddress &&& PAGE_FRAME, mark_dirty re.as_permissions frame ||| TLBLO_VALID) ∧
      ((st1.tlb (tlb_target st.tlb rnd)).2 &&& TLBLO_DIRTY ≠ 0 ↔
        re.as_permissions &&& PF_W ≠ 0) := by
  obtain ⟨as2, faultadd, permis0, hcur2, _, hscan, _, paddr, st2, htlb, hst1, hpath⟩ :=
    vm_fault_ok_zero st st1 rnd faulttype faultaddress h
  have has : as2 = as := Option.some.inj (hcur2.symm.trans hcur)
  subst has
  rw [hlist] at hscan
  obtain ⟨hr, hva0⟩ := region_scan_first_in faultaddress hfa post re _ hre
    (hend re (by simp)) pre hscan hpre (fun p hp => hend p (by simp [hp]))
  have hfad : faultadd = faultaddress &&& PAGE_FRAME := congrArg Prod.fst hr
  have hperm : permis0 = re.as_permissions := congrArg Prod.snd hr
  rw [hfad, hperm, if_neg hva0] at hst1
  simp only at hst1
  have hslot : st1.tlb (tlb_target st.tlb rnd) =
      (faultaddress &&& PAGE_FRAME, mark_dirty re.as_permissions paddr ||| TLBLO_VALID) := by
    rw [hst1]; unfold tlb_install; rw [htlb]
    unfold tlb_write; simp only [if_true]
  have hal : paddr % PAGE_SIZE = 0 := by
    rcases hpath with ⟨hl, hp, _⟩ | ⟨_, v, rest, _, _, hf, _, hp, _, _⟩
    · obtain ⟨k, _, hk⟩ := look_up_page_table_entry _ _ _ _ hl hp
      have := hpt k
      rw [hk] at this
      exact this
    · rw [hp]
      exact KVADDR_TO_PADDR_aligned v (hfree v (by rw [hf]; exact List.mem_cons_self _ _))
  refine ⟨paddr, ?_, hslot, ?_⟩
  · rcases hpath with ⟨hl, hp, hs2⟩ | ⟨hl, v, rest, pt1, ptr, hf, _, hp, _, hs2⟩
    · refine Or.inl ⟨hl, hp, ?_, ?_⟩
      · rw [hst1, hs2]; rfl
      · rw [hst1, hs2]; rfl
    · refine Or.inr ⟨hl, v, rest, hf, hp, ?_⟩
      rw [hst1, hs2]; rfl
  · rw [hslot]
    exact dirty_bit_iff _ _ hal

/-- Witness of `vm_fault_first_region`: on the 15 MB machine after boot, the address space
`as_overlapping` takes a write fault at 0x400234; the read-only page `[0x400000, 0x401000)`
stands before the writable region that overlaps it, so the fault is resolved with the
permissions of the read-only page and the mapping in TLB slot 0 has `TLBLO_DIRTY` clear. -/
theorem vm_fault_first_region_witness :
    ∃ st1,
      vm_fault (kernel_15mb table_empty_15mb as_overlapping tlb_invalid) 0
        VM_FAULT_WRITE 0x400234 = .ok (0, st1) ∧
      (¬ in_region ⟨0x500000, 4, PF_R ||| PF_X⟩ 0x400234) ∧
      in_region ⟨0x400000, 1, PF_R⟩ 0x400234 ∧
      in_region ⟨0x400000, 2, PF_R ||| PF_W⟩ 0x400234 ∧
      st1.tlb 0 = (0x400000, 0x11C000 ||| TLBLO_VALID) ∧
      ∃ frame,
        ((look_up_page_table table_empty_15mb 0x8011B010 (0x400234 &&& PAGE_FRAME) =
              .ok frame ∧ frame ≠ 0 ∧ st1.pt = table_empty_15mb ∧
              st1.free = [0x8011C000, 0x8011D000, 0x8011E000]) ∨
          (look_up_page_table table_empty_15mb 0x8011B010 (0x400234 &&& PAGE_FRAME) =
              .ok 0 ∧
            ∃ v rest, [0x8011C000, 0x8011D000, 0x8011E000] = v :: rest ∧
              frame = KVADDR_TO_PADDR v ∧ st1.free = rest)) ∧
        st1.tlb (tlb_target tlb_invalid 0) =
          (0x400234 &&& PAGE_FRAME, mark_dirty PF_R frame ||| TLBLO_VALID) ∧
        ((st1.tlb (tlb_target tlb_invalid 0)).2 &&& TLBLO_DIRTY ≠ 0 ↔
          PF_R &&& PF_W ≠ 0) := by
  have h := vm_fault_miss (kernel_15mb table_empty_15mb as_overlapping tlb_invalid)
    as_overlapping 0 VM_FAULT_WRITE
    0x400234 0x400000 PF_R 0x8011C000 [0x8011D000, 0x8011E000]
    (write_entry table_empty_15mb 525056 0x8011B010 0x400000 0x11C000) (some 525056)
    rfl (Or.inr rfl) (by decide) (by decide) (by decide)
    (look_up_page_table_none _ _ _ (by decide) (fun _ _ => rfl)) rfl (by decide)
    (show page_table_insert table_empty_15mb 0x8011B010 0x400000 0x11C000 = _ from rfl)
  exact ⟨_, h, by decide, by decide, by decide, by decide,
    vm_fault_first_region (kernel_15mb table_empty_15mb as_overlapping tlb_invalid) _
      as_overlapping
      0 VM_FAULT_WRITE 0x400234 [⟨0x500000, 4, PF_R ||| PF_X⟩] [⟨0x400000, 2, PF_R ||| PF_W⟩]
      ⟨0x400000, 1, PF_R⟩ (by decide) rfl rfl (by decide) (by decide) (by decide)
      (fun _ => rfl) (by decide) h⟩

/-! ### C4: the first fault in a writable region -/

theorem count_range_pos (P : page_table_entry → Bool) (s : Nat → page_table_entry)
    (n : Nat) : ∀ k, 0 < count_range P s n k → ∃ j, k ≤ j ∧ j < k + n ∧ P (s j) = true := by
  induction n with
  | zero => intro k h; simp [count_range] at h
  | succ n ih =>
    intro k h
    rw [count_range] at h
    by_cases hk : P (s k) = true
    · exact ⟨k, le_refl _, by omega, hk⟩
    · rw [if_neg hk] at h
      obtain ⟨j, h1, h2, h3⟩ := ih (k + 1) (by omega)
      exact ⟨j, by omega, by omega, h3⟩

theorem count_range_zero (P : page_table_entry → Bool) (s : Nat → page_table_entry)
    (n : Nat) : ∀ k, (∀ j, k ≤ j → j < k + n → P (s j) = false) → count_range P s n k = 0 := by
  induction n with
  | zero => intro k _; rfl
  | succ n ih =>
    intro k h
    rw [count_range, h k (le_refl _) (by omega),
      ih (k + 1) (fun j h1 h2 => h j (by omega) (by omega))]
    simp

/-! ### One iteration of the copy loop -/

theorem count_range_unique_eq_one (P : page_table_entry → Bool) (s : Nat → page_table_entry)
    (n : Nat) : ∀ k j0, k ≤ j0 → j0 < k + n → P (s j0) = true →
      (∀ j, k ≤ j → j < k + n → P (s j) = true → j = j0) → count_range P s n k = 1 := by
  induction n with
  | zero => intro k j0 h1 h2; omega
  | succ n ih =>
    intro k j0 h1 h2 h0 huniq
    rw [count_range]
    by_cases hk : j0 = k
    · subst hk
      rw [if_pos h0, count_range_zero P s n (j0 + 1)]
      intro j hj1 hj2
      by_contra hP
      have := huniq j (by omega) (by omega) (by simpa using hP)
      omega
    · have hkP : ¬ P (s k) = true := by
        intro hP
        have := huniq k (le_refl _) (by omega) hP
        omega
      rw [if_neg hkP, Nat.zero_add]
      exact ih (k + 1) j0 (by omega) (by omega) h0
        (fun j hj1 hj2 hP => huniq j (by omega) (by omega) hP)

/-! ### C7: the copy is one-to-one on entries -/

/-- In `table_three_owners` the only occupied slot of the table is slot 0. -/
theorem table_three_owners_slot (k : Nat) (hk : k < table_three_owners.size)
    (h : (table_three_owners.slots k).id ≠ 0) : k = 0 := by
  have hk2 : k < 7680 := hk
  by_contra hne
  apply h
  simp only [table_three_owners]
  rw [if_neg (by omega), if_neg (by omega), if_neg hne]

/-- The address space at `0x8011B810` owns one slot of `table_three_owners`. -/
theorem table_three_owners_count :
    table_three_owners.count (owned_by 0x8011B810) = 1 := by
  unfold PageTable.count
  refine count_range_unique_eq_one _ _ _ 0 0 (Nat.le_refl _) (by decide) (by decide) ?_
  intro j _ hj hP
  apply table_three_owners_slot j (by simpa using hj)
  intro h0
  rw [owned_by, h0] at hP
  exact absurd hP (by decide)

theorem count_range_le_of_imp (P : page_table_entry → Bool) (s t : Nat → page_table_entry)
    (n : Nat) : ∀ k, (∀ j, k ≤ j → j < k + n → P (s j) = true → P (t j) = true) →
      count_range P s n k ≤ count_range P t n k := by
  induction n with
  | zero => intro k _; exact Nat.le_refl _
  | succ n ih =>
    intro k h
    have h1 := ih (k + 1) (fun j h1 h2 => h j (by omega) (by omega))
    have h2 := h k (Nat.le_refl _) (by omega)
    rw [count_range, count_range]
    by_cases hs : P (s k) = true
    · rw [if_pos hs, if_pos (h2 hs)]; omega
    · rw [if_neg hs]
      by_cases ht : P (t k) = true
      · rw [if_pos ht]; omega
      · rw [if_neg ht]; omega

/-- The insert of a user page returns, and every cell afterwards holds what it held before
or the new entry. -/
theorem page_table_insert_slots (pt : PageTable) (id va pa : Nat) (hva : va < 0x80000000) :
    ∃ pt1 ptr, page_table_insert pt id va pa = .ok (pt1, ptr) ∧
      ∀ j, pt1.slots j = pt.slots j ∨ pt1.slots j = ⟨id, va, pa⟩ := by
  rcases page_table_insert_cases pt id va pa hva with ⟨k, _, _, h⟩ | ⟨_, _, _, h⟩
  · refine ⟨_, _, h, ?_⟩
    intro j
    by_cases hj : j = k
    · right; rw [hj]; exact setSlot_same _ _ _
    · left; exact setSlot_other _ _ _ _ hj
  · exact ⟨_, _, h, fun _ => Or.inl rfl⟩

/-- The copy loop over the slots `[k, k+n)` returns 0 when the entries of `oldas` have user
pages and the allocator hands out a frame for each of them: the result of
`page_table_insert` is not looked at. -/
theorem copy_loop_returns (oldas newas : Nat) (hne : oldas ≠ newas) (n : Nat) :
    ∀ (k : Nat) (st : Kernel),
      (∀ j, k ≤ j → j < k + n → (st.pt.slots j).id = oldas →
        (st.pt.slots j).page_addr < 0x80000000) →
      count_range (owned_by oldas) st.pt.slots n k ≤ st.free.length →
      (∀ v ∈ st.free, v ≠ 0) →
      ∃ st1, copy_loop oldas newas n k st = .ok (0, st1) := by
  induction n with
  | zero => intro k st _ _ _; exact ⟨st, rfl⟩
  | succ n ih =>
    intro k st H1 H3 H4
    by_cases hk : (st.pt.slots k).id = oldas
    · have hP : owned_by oldas (st.pt.slots k) = true := by simp [owned_by, hk]
      rw [count_range, if_pos hP] at H3
      have hva := H1 k (le_refl _) (by omega) hk
      obtain ⟨v, rest, hfree⟩ : ∃ v rest, st.free = v :: rest := by
        cases hf : st.free with
        | nil => rw [hf] at H3; simp at H3
        | cons v rest => exact ⟨v, rest, rfl⟩
      have hv : v ≠ 0 := H4 v (by rw [hfree]; exact List.mem_cons_self _ _)
      have ha : alloc_kpages st = (v, { st with free := rest }) := by
        unfold alloc_kpages; rw [hfree]
      obtain ⟨pt1, ptr, hins, hslots⟩ :=
        page_table_insert_slots st.pt newas (st.pt.slots k).page_addr (KVADDR_TO_PADDR v) hva
      have hsame : ∀ j, (pt1.slots j).id = oldas → pt1.slots j = st.pt.slots j := by
        intro j hj
        rcases hslots j with h | h
        · exact h
        · rw [h] at hj; exact absurd hj.symm hne
      have hcnt : count_range (owned_by oldas) pt1.slots n (k + 1) ≤
          count_range (owned_by oldas) st.pt.slots n (k + 1) := by
        apply count_range_le_of_imp
        intro j _ _ hj
        have hj2 : (pt1.slots j).id = oldas := by simpa [owned_by] using hj
        rw [← hsame j hj2]; exact hj
      obtain ⟨st1, hrun⟩ := ih (k + 1)
        { st with
          free := rest,
          pt := pt1,
          mem := memcpy (as_zero_region st.mem v 1) v
            (PADDR_TO_KVADDR (pt1.slots k).frame_addr) PAGE_SIZE }
        (by
          intro j h1 h2 hj
          have hj2 : (pt1.slots j).id = oldas := hj
          show (pt1.slots j).page_addr < 0x80000000
          rw [hsame j hj2]
          exact H1 j (by omega) (by omega) (by rw [← hsame j hj2]; exact hj2))
        (by
          show count_range (owned_by oldas) pt1.slots n (k + 1) ≤ rest.length
          rw [hfree] at H3; simp at H3; omega)
        (fun w hw => H4 w (by rw [hfree]; exact List.mem_cons_of_mem _ hw))
      refine ⟨st1, ?_⟩
      rw [copy_loop]
      simp only [hk, if_true, ha, hv, if_false, hins]
      exact hrun
    · have hP : ¬ owned_by oldas (st.pt.slots k) = true := by simpa [owned_by] using hk
      rw [count_range, if_neg hP, Nat.zero_add] at H3
      obtain ⟨st1, hrun⟩ := ih (k + 1) st
        (fun j h1 h2 hj => H1 j (by omega) (by omega) hj) H3 H4
      exact ⟨st1, by rw [copy_loop, if_neg hk]; exact hrun⟩

/-- C14 as stated is false.  `as_copy` asserts on every region it copies that base and page
count are non-zero.  On the 15 MB machine, with an empty page table and three frames to hand
out, the current address space, at `0x8011B010`, has the one region `(0x400000, 0 pages)`, which
`as_define_region(as, 0x400000, 0, ...)` builds, or the one region `(0, 1 page)`, which
`as_define_region(as, 0, 4096, ...)` builds: the region list is not empty and every
allocation succeeds, and `as_copy` ends in a failed assertion. -/
theorem as_copy_asserts_on_region :
    as_define_region ⟨0x8011B010, []⟩ true 0x400000 0 PF_R 0 PF_X =
      .ok (0, ⟨0x8011B010, [⟨0x400000, 0, 5⟩]⟩) ∧
    as_copy (kernel_15mb table_empty_15mb ⟨0x8011B010, [⟨0x400000, 0, 5⟩]⟩ tlb_invalid)
      ⟨0x8011B010, [⟨0x400000, 0, 5⟩]⟩ 0x8011B410 5 = .error .kassert ∧
    as_define_region ⟨0x8011B010, []⟩ true 0 4096 PF_R PF_W 0 =
      .ok (0, ⟨0x8011B010, [⟨0, 1, 6⟩]⟩) ∧
    as_copy (kernel_15mb table_empty_15mb ⟨0x8011B010, [⟨0, 1, 6⟩]⟩ tlb_invalid)
      ⟨0x8011B010, [⟨0, 1, 6⟩]⟩ 0x8011B410 5 = .error .kassert :=
  ⟨by decide, rfl, by decide, rfl⟩

/-- C14 (amended): for every address space `old` with a non-empty region list whose regions
have a non-zero base and a non-zero page count, when the allocation of the new address
space (at an address other than that of `old`), of every region node and of a frame for every
page-table entry of `old` succeeds, the entries of `old` being user pages, `as_copy(old,
&ret)` returns 0 and stores through `ret` an address space whose region list equals the list
of `old`: same length and, position by position, same base, page count and permissions.
(`old` is a value of the model and is not changed.) -/
theorem as_copy_regions (st : Kernel) (old : addrspace) (newaddr avail : Nat)
    (hnew : newaddr ≠ 0)
    (hdiff : old.addr ≠ newaddr)
    (hne : old.as_regions_start ≠ [])
    (hwf : ∀ re ∈ old.as_regions_start, re.as_vbase ≠ 0 ∧ re.as_npages ≠ 0)
    (havail : old.as_regions_start.length ≤ avail)
    (hfree : st.pt.count (owned_by old.addr) ≤ st.free.length)
    (hnz : ∀ v ∈ st.free, v ≠ 0)
    (huser : ∀ k, k < st.pt.size → (st.pt.slots k).id = old.addr →
      (st.pt.slots k).page_addr < 0x80000000) :
    ∃ st1, as_copy st old newaddr avail =
      .ok (0, some ⟨newaddr, old.as_regions_start⟩, st1) := by
  have hsz : st.pt.framenum * 2 = st.pt.size := Nat.mul_comm _ _
  obtain ⟨st1, hrun⟩ := copy_loop_returns old.addr newaddr hdiff st.pt.size 0 st
    (fun j _ hj hid => huser j (by omega) hid) hfree hnz
  have hpt : copyPageTable st old.addr newaddr = .ok (0, st1) := by
    unfold copyPageTable; rw [hsz]; exact hrun
  refine ⟨st1, ?_⟩
  unfold as_copy
  simp only [hnew, hne, if_false, copy_regions_ok _ avail hwf havail, hpt, ne_eq,
    not_true_eq_false]

/-- Witness of `as_copy_regions`: on the 15 MB machine, the address space at `0x8011B810`
with one writable region, whose page 0x400000 lies in slot 0 of `table_three_owners`, is
copied to the new address space at `0x8011BC10`. -/
theorem as_copy_regions_witness :
    ∃ st1, as_copy kernel_copy_15mb ⟨0x8011B810, [⟨0x400000, 1, PF_R ||| PF_W⟩]⟩ 0x8011BC10 1 =
      .ok (0, some ⟨0x8011BC10, [⟨0x400000, 1, PF_R ||| PF_W⟩]⟩, st1) := by
  refine as_copy_regions kernel_copy_15mb ⟨0x8011B810, [⟨0x400000, 1, PF_R ||| PF_W⟩]⟩
    0x8011BC10 1 (by decide) (by decide) (by decide) (by decide) (by decide) ?_ (by decide) ?_
  · show table_three_owners.count (owned_by 0x8011B810) ≤ _
    rw [table_three_owners_count]
    decide
  · intro k hk hid
    have h0 := table_three_owners_slot k hk (by
      show (table_three_owners.slots k).id ≠ 0
      rw [show (table_three_owners.slots k).id = 0x8011B810 from hid]; decide)
    rw [h0]
    decide

/-! ### C17: uniqueness of (owner, page) pairs -/

theorem count_range_succ_ge (P : page_table_entry → Bool) (s : Nat → page_table_entry)
    (n : Nat) : ∀ k, count_range P s n k ≤ count_range P s (n + 1) k := by
  induction n with
  | zero => intro k; rw [count_range]; exact Nat.zero_le _
  | succ n ih =>
    intro k
    have := ih (k + 1)
    have e1 : count_range P s (n + 1) k =
        (if P (s k) then 1 else 0) + count_range P s n (k + 1) := rfl
    have e2 : count_range P s (n + 1 + 1) k =
        (if P (s k) then 1 else 0) + count_range P s (n + 1) (k + 1) := rfl
    rw [e1, e2]
    omega

/-- In a consistent table every occupied slot lies where the lookup of its page reads, every
occupied cell records a non-zero frame, and for every page one of the probed cells is
empty. -/
theorem consistent_room (pt : PageTable) (n : Nat) (h : pt.consistent n) :
    pt.placed ∧ pt.frames_nonzero ∧ ∀ va, pt.has_room va := by
  obtain ⟨_, hfr, hsc, _, _, hcap⟩ := h
  refine ⟨fun j hj hid => Or.inr (Or.inr (hsc j hj hid)), hfr, fun va => ?_⟩
  obtain ⟨j, _, hj, hP⟩ := count_range_pos _ _ _ _ (Nat.lt_of_le_of_lt (Nat.zero_le n) hcap)
  exact ⟨j, Or.inr (Or.inr (by omega)), by simpa [owned_by] using hP⟩

/-- In a consistent table `page_table_insert` of a user page does not fail: it stores the
entry in a probed cell that was empty. -/
theorem consistent_insert_succeeds (pt : PageTable) (n id va pa : Nat)
    (h : pt.consistent n) (hva : va < 0x80000000) :
    ∃ k, pt.probed va k ∧ (pt.slots k).id = 0 ∧
      page_table_insert pt id va pa = .ok (write_entry pt k id va pa, some k) :=
  page_table_insert_room pt id va pa hva ((consistent_room pt n h).2.2 va)

/-- In a consistent state with a frame for every entry of `oldas`, the conditions of the
copy hold: the pages of `oldas` are user pages whose direct and mirror cell are occupied,
and the slots `0 .. framenum` hold an empty slot for every entry of `oldas`. -/
theorem consistent_copy (st : Kernel) (oldas : Nat) (h : st.consistent) (hold : oldas ≠ 0)
    (hfree : st.pt.count (owned_by oldas) ≤ st.free.length) :
    0 < st.pt.framenum ∧
    (∀ k, k < st.pt.size → (st.pt.slots k).id = oldas →
      (st.pt.slots k).page_addr < 0x80000000 ∧
      (st.pt.slots (direct_index st.pt.frametop (st.pt.slots k).page_addr)).id ≠ 0 ∧
      (st.pt.slots
        (direct_index st.pt.frametop (st.pt.slots k).page_addr + st.pt.framenum)).id ≠ 0) ∧
    st.pt.count (owned_by oldas) ≤ st.pt.reachable_empty := by
  obtain ⟨⟨_, _, _, _, hct, hcap⟩, _⟩ := h
  refine ⟨?_, fun k hk hid => hct k hk (by rw [hid]; exact hold), ?_⟩
  · by_contra h0
    have e : st.pt.framenum = 0 := by omega
    rw [e, count_range] at hcap
    omega
  · have := count_range_succ_ge (owned_by 0) st.pt.slots st.pt.framenum 0
    show _ ≤ count_range (owned_by 0) st.pt.slots (st.pt.framenum + 1) 0
    omega

end OS161
